import Mathlib

/-!
Shallow embedding of the hhap-parser-rs HTTP parser (src/parser.rs,
src/state.rs, src/response_type.rs) in Lean 4, together with theorems
settling the specification claims.  Bytes are modelled as `Nat` values
(0..255), `u64` as `Nat` with explicit guard comparisons against
`ULLONG_MAX` (the guards in the source prevent any wrap, so plain `Nat`
arithmetic is exact), `u8` http-version components as `Nat` with `% 256`
where the source can wrap in release mode.
-/

namespace HapParser

/-- `HttpParserType` from src/parser.rs. -/
inductive HttpParserType
  | Request
  | Response
  | Both
  deriving DecidableEq, Repr

/-- `State` from src/state.rs, in source declaration order (the derived
`PartialOrd` on the Rust enum compares declaration indices). -/
inductive State
  | Dead
  | StartReqOrRes
  | ResOrRespH
  | StartRes
  | ResH
  | ResHT
  | ResHTT
  | ResHTTP
  | ResE
  | ResEV
  | ResEVE
  | ResEVEN
  | ResEVENT
  | ResFirstHttpMajor
  | ResHttpMajor
  | ResFirstHttpMinor
  | ResHttpMinor
  | ResFirstStatusCode
  | ResStatusCode
  | ResStatusStart
  | ResStatus
  | ResLineAlmostDone
  | StartReq
  | ReqMethod
  | ReqSpacesBeforeUrl
  | ReqSchema
  | ReqSchemaSlash
  | ReqSchemaSlashSlash
  | ReqServerStart
  | ReqServer
  | ReqServerWithAt
  | ReqPath
  | ReqQueryStringStart
  | ReqQueryString
  | ReqFragmentStart
  | ReqFragment
  | ReqHttpStart
  | ReqHttpH
  | ReqHttpHT
  | ReqHttpHTT
  | ReqHttpHTTP
  | ReqFirstHttpMajor
  | ReqHttpMajor
  | ReqFirstHttpMinor
  | ReqHttpMinor
  | ReqLineAlmostDone
  | HeaderFieldStart
  | HeaderField
  | HeaderValueDiscardWs
  | HeaderValueDiscardWsAlmostDone
  | HeaderValueDiscardLws
  | HeaderValueStart
  | HeaderValue
  | HeaderValueLws
  | HeaderAlmostDone
  | ChunkSizeStart
  | ChunkSize
  | ChunkParameters
  | ChunkSizeAlmostDone
  | HeadersAlmostDone
  | HeadersDone
  | ChunkData
  | ChunkDataAlmostDone
  | ChunkDataDone
  | BodyIdentity
  | BodyIdentityEof
  | MessageDone
  deriving DecidableEq, Repr

/-- Declaration index of a `State`, mirroring the derived `Ord` of the Rust
enum in src/state.rs. -/
def State.ord : State → Nat
  | .Dead => 0
  | .StartReqOrRes => 1
  | .ResOrRespH => 2
  | .StartRes => 3
  | .ResH => 4
  | .ResHT => 5
  | .ResHTT => 6
  | .ResHTTP => 7
  | .ResE => 8
  | .ResEV => 9
  | .ResEVE => 10
  | .ResEVEN => 11
  | .ResEVENT => 12
  | .ResFirstHttpMajor => 13
  | .ResHttpMajor => 14
  | .ResFirstHttpMinor => 15
  | .ResHttpMinor => 16
  | .ResFirstStatusCode => 17
  | .ResStatusCode => 18
  | .ResStatusStart => 19
  | .ResStatus => 20
  | .ResLineAlmostDone => 21
  | .StartReq => 22
  | .ReqMethod => 23
  | .ReqSpacesBeforeUrl => 24
  | .ReqSchema => 25
  | .ReqSchemaSlash => 26
  | .ReqSchemaSlashSlash => 27
  | .ReqServerStart => 28
  | .ReqServer => 29
  | .ReqServerWithAt => 30
  | .ReqPath => 31
  | .ReqQueryStringStart => 32
  | .ReqQueryString => 33
  | .ReqFragmentStart => 34
  | .ReqFragment => 35
  | .ReqHttpStart => 36
  | .ReqHttpH => 37
  | .ReqHttpHT => 38
  | .ReqHttpHTT => 39
  | .ReqHttpHTTP => 40
  | .ReqFirstHttpMajor => 41
  | .ReqHttpMajor => 42
  | .ReqFirstHttpMinor => 43
  | .ReqHttpMinor => 44
  | .ReqLineAlmostDone => 45
  | .HeaderFieldStart => 46
  | .HeaderField => 47
  | .HeaderValueDiscardWs => 48
  | .HeaderValueDiscardWsAlmostDone => 49
  | .HeaderValueDiscardLws => 50
  | .HeaderValueStart => 51
  | .HeaderValue => 52
  | .HeaderValueLws => 53
  | .HeaderAlmostDone => 54
  | .ChunkSizeStart => 55
  | .ChunkSize => 56
  | .ChunkParameters => 57
  | .ChunkSizeAlmostDone => 58
  | .HeadersAlmostDone => 59
  | .HeadersDone => 60
  | .ChunkData => 61
  | .ChunkDataAlmostDone => 62
  | .ChunkDataDone => 63
  | .BodyIdentity => 64
  | .BodyIdentityEof => 65
  | .MessageDone => 66

/-- `State::is_header_state` from src/state.rs: `self <= State::HeadersDone`
under the derived declaration-order comparison. -/
def State.is_header_state (s : State) : Bool :=
  s.ord ≤ State.HeadersDone.ord

/-- `HeaderState` from src/state.rs. -/
inductive HeaderState
  | General
  | C
  | CO
  | CON
  | MatchingConnection
  | MatchingProxyConnection
  | MatchingContentLength
  | MatchingTransferEncoding
  | MatchingUpgrade
  | Connection
  | ContentLength
  | TransferEncoding
  | Upgrade
  | MatchingTransferEncodingChunked
  | MatchingConnectionKeepAlive
  | MatchingConnectionClose
  | TransferEncodingChunked
  | ConnectionKeepAlive
  | ConnectionClose
  deriving DecidableEq, Repr

/-- `ResponseType` from src/response_type.rs. -/
inductive ResponseType
  | Http
  | Event
  deriving DecidableEq, Repr

/-- Modelled from the spec: error.rs (the `HttpErrno` enumeration) is not
under src/; the closed set of variants is taken from spec section 7 and the
uses in src/parser.rs. -/
inductive HttpErrno
  | CBMessageBegin
  | CBUrl
  | CBHeaderField
  | CBHeaderValue
  | CBHeadersComplete
  | CBBody
  | CBMessageComplete
  | CBStatus
  | Strict
  | InvalidVersion
  | InvalidStatus
  | InvalidMethod
  | InvalidUrl
  | InvalidHost
  | InvalidPort
  | InvalidPath
  | InvalidQueryString
  | InvalidFragment
  | LFExpected
  | InvalidHeaderToken
  | InvalidContentLength
  | InvalidChunkSize
  | InvalidConstant
  | InvalidInternalState
  | Paused
  | HeaderOverflow
  | ClosedConnection
  | InvalidEofState
  | UnknownError
  deriving DecidableEq, Repr

/-- Modelled from the spec: http_method.rs is not under src/; the method set
is spec section 4.2 and the variants named in src/parser.rs. -/
inductive HttpMethod
  | Delete
  | Get
  | Head
  | Post
  | Put
  | Connect
  | Options
  | Trace
  | Copy
  | Lock
  | MKCol
  | Move
  | PropFind
  | PropPatch
  | Search
  | Unlock
  | Report
  | MKActivity
  | Checkout
  | Merge
  | MSearch
  | Notify
  | Subscribe
  | Unsubscribe
  | Patch
  | Purge
  | MKCalendar
  deriving DecidableEq, Repr

/-- Modelled from the spec: http_method.rs's `to_string` is not under src/;
these are the ASCII byte strings of the method names of spec section 4.2
(with M-SEARCH hyphenated, as forced by the fork `MKCOL` at index 1 on a
hyphen byte in src/parser.rs). -/
def HttpMethod.bytes : HttpMethod → List Nat
  | .Delete => [68, 69, 76, 69, 84, 69]
  | .Get => [71, 69, 84]
  | .Head => [72, 69, 65, 68]
  | .Post => [80, 79, 83, 84]
  | .Put => [80, 85, 84]
  | .Connect => [67, 79, 78, 78, 69, 67, 84]
  | .Options => [79, 80, 84, 73, 79, 78, 83]
  | .Trace => [84, 82, 65, 67, 69]
  | .Copy => [67, 79, 80, 89]
  | .Lock => [76, 79, 67, 75]
  | .MKCol => [77, 75, 67, 79, 76]
  | .Move => [77, 79, 86, 69]
  | .PropFind => [80, 82, 79, 80, 70, 73, 78, 68]
  | .PropPatch => [80, 82, 79, 80, 80, 65, 84, 67, 72]
  | .Search => [83, 69, 65, 82, 67, 72]
  | .Unlock => [85, 78, 76, 79, 67, 75]
  | .Report => [82, 69, 80, 79, 82, 84]
  | .MKActivity => [77, 75, 65, 67, 84, 73, 86, 73, 84, 89]
  | .Checkout => [67, 72, 69, 67, 75, 79, 85, 84]
  | .Merge => [77, 69, 82, 71, 69]
  | .MSearch => [77, 45, 83, 69, 65, 82, 67, 72]
  | .Notify => [78, 79, 84, 73, 70, 89]
  | .Subscribe => [83, 85, 66, 83, 67, 82, 73, 66, 69]
  | .Unsubscribe => [85, 78, 83, 85, 66, 83, 67, 82, 73, 66, 69]
  | .Patch => [80, 65, 84, 67, 72]
  | .Purge => [80, 85, 82, 71, 69]
  | .MKCalendar => [77, 75, 67, 65, 76, 69, 78, 68, 65, 82]

/-- `HttpVersion` from http_version.rs (major/minor octets); the struct is
not under src/ but its two fields are fixed by the uses in src/parser.rs. -/
structure HttpVersion where
  major : Nat
  minor : Nat
  deriving DecidableEq, Repr

namespace Flags

/-- Modelled from the spec: flags.rs is not under src/; the six flags of
spec section 3 as distinct bits of a `u8` (the concrete bit positions are
unobservable — src/parser.rs only ors in and tests single flags). -/
def ConnectionKeepAlive : Nat := 1
/-- `Flags::ConnectionClose` bit. -/
def ConnectionClose : Nat := 2
/-- `Flags::Chunked` bit. -/
def Chunked : Nat := 4
/-- `Flags::Trailing` bit. -/
def Trailing : Nat := 8
/-- `Flags::Upgrade` bit. -/
def Upgrade : Nat := 16
/-- `Flags::SkipBody` bit. -/
def SkipBody : Nat := 32

end Flags

/-- `HTTP_MAX_HEADER_SIZE` from src/parser.rs. -/
def HTTP_MAX_HEADER_SIZE : Nat := 80 * 1024

/-- `ULLONG_MAX` (`u64::MAX`) from src/parser.rs. -/
def ULLONG_MAX : Nat := 2 ^ 64 - 1

/-- `CR` from src/parser.rs. -/
def CR : Nat := 13
/-- `LF` from src/parser.rs. -/
def LF : Nat := 10

/-- byte string "proxy-connection" (src/parser.rs `PROXY_CONNECTION`). -/
def PROXY_CONNECTION : List Nat :=
  [112, 114, 111, 120, 121, 45, 99, 111, 110, 110, 101, 99, 116, 105, 111, 110]
/-- byte string "connection" (src/parser.rs `CONNECTION`). -/
def CONNECTION : List Nat := [99, 111, 110, 110, 101, 99, 116, 105, 111, 110]
/-- byte string "content-length" (src/parser.rs `CONTENT_LENGTH`). -/
def CONTENT_LENGTH : List Nat :=
  [99, 111, 110, 116, 101, 110, 116, 45, 108, 101, 110, 103, 116, 104]
/-- byte string "transfer-encoding" (src/parser.rs `TRANSFER_ENCODING`). -/
def TRANSFER_ENCODING : List Nat :=
  [116, 114, 97, 110, 115, 102, 101, 114, 45, 101, 110, 99, 111, 100, 105, 110, 103]
/-- byte string "upgrade" (src/parser.rs `UPGRADE`). -/
def UPGRADE : List Nat := [117, 112, 103, 114, 97, 100, 101]
/-- byte string "chunked" (src/parser.rs `CHUNKED`). -/
def CHUNKED : List Nat := [99, 104, 117, 110, 107, 101, 100]
/-- byte string "keep-alive" (src/parser.rs `KEEP_ALIVE`). -/
def KEEP_ALIVE : List Nat := [107, 101, 101, 112, 45, 97, 108, 105, 118, 101]
/-- byte string "close" (src/parser.rs `CLOSE`). -/
def CLOSE : List Nat := [99, 108, 111, 115, 101]

/-- `is_normal_header_char` from src/parser.rs. -/
def is_normal_header_char (ch : Nat) : Bool :=
  ch == 33 || (ch ≥ 35 && ch ≤ 39) ||
    ch == 42 || ch == 43 || ch == 45 || ch == 46 ||
    (ch ≥ 48 && ch ≤ 57) || (ch ≥ 65 && ch ≤ 90) ||
    (ch ≥ 94 && ch ≤ 122) || ch == 124 || ch == 126

/-- `is_header_char` from src/parser.rs. -/
def is_header_char (strict : Bool) (ch : Nat) : Bool :=
  if strict then
    is_normal_header_char ch
  else
    ch == 32 || is_normal_header_char ch

/-- `is_normal_url_char` from src/parser.rs. -/
def is_normal_url_char (ch : Nat) : Bool :=
  ch == 33 || ch == 34 || (ch ≥ 36 && ch ≤ 62) || (ch ≥ 64 && ch ≤ 126)

/-- `is_url_char` from src/parser.rs (the `ch & 0x80` test on a byte is
`ch ≥ 128` for byte values). -/
def is_url_char (strict : Bool) (ch : Nat) : Bool :=
  is_normal_url_char ch || (!strict && (ch ≥ 128 || ch == 9 || ch == 12))

/-- `unhex_value` from src/parser.rs. -/
def unhex_value (ch : Nat) : Option Nat :=
  if ch ≥ 48 && ch ≤ 57 then some (ch - 48)
  else if ch ≥ 97 && ch ≤ 102 then some (10 + ch - 97)
  else if ch ≥ 65 && ch ≤ 70 then some (10 + ch - 65)
  else none

/-- `lower` from src/parser.rs (`ch | 0x20`). -/
def lower (ch : Nat) : Nat := ch ||| 32

/-- `is_num` from src/parser.rs. -/
def is_num (ch : Nat) : Bool := ch ≥ 48 && ch ≤ 57

/-- `is_alpha` from src/parser.rs. -/
def is_alpha (ch : Nat) : Bool :=
  (ch ≥ 97 && ch ≤ 122) || (ch ≥ 65 && ch ≤ 90)

/-- `is_alphanum` from src/parser.rs. -/
def is_alphanum (ch : Nat) : Bool := is_num ch || is_alpha ch

/-- `is_mark` from src/parser.rs. -/
def is_mark (ch : Nat) : Bool :=
  ch == 45 || ch == 95 || ch == 46 || ch == 33 || ch == 126 ||
    ch == 42 || ch == 39 || ch == 40 || ch == 41

/-- `is_userinfo_char` from src/parser.rs. -/
def is_userinfo_char (ch : Nat) : Bool :=
  is_alphanum ch || is_mark ch || ch == 37 ||
    ch == 59 || ch == 58 || ch == 38 || ch == 61 ||
    ch == 43 || ch == 36 || ch == 44

/-- The `HttpParser` struct from src/parser.rs. -/
structure HttpParser where
  http_version : HttpVersion
  errno : Option HttpErrno
  status_code : Option Nat
  response_type : Option ResponseType
  method : Option HttpMethod
  upgrade : Bool
  strict : Bool
  tp : HttpParserType
  state : State
  header_state : HeaderState
  flags : Nat
  index : Nat
  nread : Nat
  content_length : Nat
  deriving DecidableEq, Repr

/-- `HttpParser::new` from src/parser.rs. -/
def HttpParser.new (tp : HttpParserType) : HttpParser :=
  { tp := tp
    state := match tp with
      | .Request => State.StartReq
      | .Response => State.StartRes
      | .Both => State.StartReqOrRes
    header_state := HeaderState.General
    flags := 0
    index := 0
    nread := 0
    content_length := ULLONG_MAX
    http_version := { major := 1, minor := 0 }
    errno := none
    status_code := none
    response_type := none
    method := none
    upgrade := false
    strict := true }

/-- `HttpParser::http_message_needs_eof` from src/parser.rs. -/
def HttpParser.http_message_needs_eof (p : HttpParser) : Bool :=
  if p.tp = HttpParserType.Request then
    false
  else
    let status_code := p.status_code.getD 0
    if status_code / 100 == 1 || status_code == 204 || status_code == 304 ||
        (p.flags &&& Flags.SkipBody) ≠ 0 then
      false
    else if (p.flags &&& Flags.Chunked) ≠ 0 || p.content_length ≠ ULLONG_MAX then
      false
    else
      true

/-- `HttpParser::http_should_keep_alive` from src/parser.rs. -/
def HttpParser.http_should_keep_alive (p : HttpParser) : Bool :=
  if p.http_version.major > 0 && p.http_version.minor > 0 then
    if (p.flags &&& Flags.ConnectionClose) ≠ 0 then false
    else !p.http_message_needs_eof
  else
    if (p.flags &&& Flags.ConnectionKeepAlive) == 0 then false
    else !p.http_message_needs_eof

/-- `HttpParser::new_message` from src/parser.rs. -/
def HttpParser.new_message (p : HttpParser) : HttpParser :=
  let new_state := if p.tp = HttpParserType.Request then State.StartReq else State.StartRes
  { p with state :=
      if p.strict then
        if p.http_should_keep_alive then new_state else State.Dead
      else new_state }

/-- `HttpParser::http_body_is_final` from src/parser.rs. -/
def HttpParser.http_body_is_final (p : HttpParser) : Bool :=
  p.state == State.MessageDone

/-- `HttpParser::pause` from src/parser.rs; the `panic!` branch is modelled
as `none`. -/
def HttpParser.pause (p : HttpParser) (pause : Bool) : Option HttpParser :=
  if p.errno = none ∨ p.errno = some HttpErrno.Paused then
    some { p with errno := if pause then some HttpErrno.Paused else none }
  else
    none

/-- `HttpParser::parse_url_char` from src/parser.rs. -/
def parse_url_char (strict : Bool) (s : State) (ch : Nat) : State :=
  if ch == 32 || ch == CR || ch == LF || (strict && (ch == 9 || ch == 12)) then
    State.Dead
  else
    match s with
    | State.ReqSpacesBeforeUrl =>
        if ch == 47 || ch == 42 then State.ReqPath
        else if is_alpha ch then State.ReqSchema
        else State.Dead
    | State.ReqSchema =>
        if is_alpha ch then s
        else if ch == 58 then State.ReqSchemaSlash
        else State.Dead
    | State.ReqSchemaSlash =>
        if ch == 47 then State.ReqSchemaSlashSlash
        else State.Dead
    | State.ReqSchemaSlashSlash =>
        if ch == 47 then State.ReqServerStart
        else State.Dead
    | State.ReqServerWithAt =>
        if ch == 64 then State.Dead
        else if ch == 47 then State.ReqPath
        else if ch == 63 then State.ReqQueryStringStart
        else if is_userinfo_char ch || ch == 91 || ch == 93 then State.ReqServer
        else State.Dead
    | State.ReqServerStart | State.ReqServer =>
        if ch == 47 then State.ReqPath
        else if ch == 63 then State.ReqQueryStringStart
        else if ch == 64 then State.ReqServerWithAt
        else if is_userinfo_char ch || ch == 91 || ch == 93 then State.ReqServer
        else State.Dead
    | State.ReqPath =>
        if is_url_char strict ch then s
        else if ch == 63 then State.ReqQueryStringStart
        else if ch == 35 then State.ReqFragmentStart
        else State.Dead
    | State.ReqQueryStringStart | State.ReqQueryString =>
        if is_url_char strict ch then State.ReqQueryString
        else if ch == 63 then State.ReqQueryString
        else if ch == 35 then State.ReqFragmentStart
        else State.Dead
    | State.ReqFragmentStart =>
        if is_url_char strict ch then State.ReqFragment
        else if ch == 63 then State.ReqFragment
        else if ch == 35 then s
        else State.Dead
    | State.ReqFragment =>
        if is_url_char strict ch then s
        else if ch == 63 || ch == 35 then s
        else State.Dead
    | _ => State.Dead

/-- `ParseAction` from callback.rs (not under src/; the two variants are
fixed by their uses in src/parser.rs and spec section 4.5). -/
inductive ParseAction
  | None
  | SkipBody
  deriving DecidableEq, Repr

/-- The callback trait from callback.rs, modelled as pure result functions:
`true` (or `some action`) is `Ok`, `false` (or `none`) is `Err`.  Span
callbacks receive the start and end indices of the span inside the current
buffer. -/
structure Callbacks where
  on_message_begin : HttpParser → Bool
  on_url : HttpParser → Nat → Nat → Bool
  on_status : HttpParser → Nat → Nat → Bool
  on_header_field : HttpParser → Nat → Nat → Bool
  on_header_value : HttpParser → Nat → Nat → Bool
  on_headers_complete : HttpParser → Option ParseAction
  on_body : HttpParser → Nat → Nat → Bool
  on_message_complete : HttpParser → Bool

/-- The default no-op callbacks (every hook succeeds). -/
def defaultCallbacks : Callbacks :=
  { on_message_begin := fun _ => true
    on_url := fun _ _ _ => true
    on_status := fun _ _ _ => true
    on_header_field := fun _ _ _ => true
    on_header_value := fun _ _ _ => true
    on_headers_complete := fun _ => some ParseAction.None
    on_body := fun _ _ _ => true
    on_message_complete := fun _ => true }

/-- Observable callback invocations of one `execute` call, with span
indices into the current buffer where the hook takes a span. -/
inductive Event
  | MessageBegin
  | UrlSpan (s e : Nat)
  | StatusSpan (s e : Nat)
  | FieldSpan (s e : Nat)
  | ValueSpan (s e : Nat)
  | HeadersComplete
  | BodySpan (s e : Nat)
  | MessageComplete
  deriving DecidableEq, Repr

/-- The five per-call marks of `execute` (src/parser.rs lines 253-257). -/
structure Marks where
  header_field : Option Nat
  header_value : Option Nat
  url : Option Nat
  body : Option Nat
  status : Option Nat
  deriving DecidableEq, Repr

/-- Outcome of dispatching one byte in one state: an early `return count`
from `execute`, a re-dispatch of the same byte (`retry = true` in the
source), or a break out of the inner loop (the outer loop then advances
`index` by one). -/
inductive DOut
  | ret (p : HttpParser) (evs : List Event) (count : Nat)
  | retry (p : HttpParser) (m : Marks) (evs : List Event) (index : Nat)
  | adv (p : HttpParser) (m : Marks) (evs : List Event) (index : Nat)
  deriving Repr

/-- One step of the header-name/value keyword matchers of src/parser.rs:
`i` is the already-incremented `self.index`, `tgt` the keyword bytes, `cur`
the matching sub-state kept while the match is still open and `done` the
sub-state reached on the keyword's last byte. -/
def matchKw (tgt : List Nat) (done cur : HeaderState) (i c : Nat) : HeaderState :=
  if i ≥ tgt.length || ¬(c == tgt.getD i 0) then HeaderState.General
  else if i == tgt.length - 1 then done
  else cur

/-- The combined `HeaderValueDiscardWs | HeaderValueStart` arm of the
`execute` state match (src/parser.rs lines 960-1003), reached for a
non-whitespace byte. -/
def headerValueStartStep (p : HttpParser) (m : Marks) (evs : List Event)
    (index ch : Nat) : DOut :=
  let m := { m with header_value :=
    match m.header_value with
    | none => some index
    | some k => some k }
  let p := { p with state := State.HeaderValue, index := 0 }
  let c := lower ch
  match p.header_state with
  | HeaderState.Upgrade =>
      DOut.adv { p with flags := p.flags ||| Flags.Upgrade,
                        header_state := HeaderState.General } m evs index
  | HeaderState.TransferEncoding =>
      DOut.adv { p with header_state :=
        if c == 99 then HeaderState.MatchingTransferEncodingChunked
        else HeaderState.General } m evs index
  | HeaderState.ContentLength =>
      if ¬is_num ch then
        DOut.ret { p with errno := some HttpErrno.InvalidContentLength } evs index
      else
        DOut.adv { p with content_length := ch - 48 } m evs index
  | HeaderState.Connection =>
      DOut.adv { p with header_state :=
        if c == 107 then HeaderState.MatchingConnectionKeepAlive
        else if c == 99 then HeaderState.MatchingConnectionClose
        else HeaderState.General } m evs index
  | _ =>
      DOut.adv { p with header_state := HeaderState.General } m evs index

/-- The first-byte method guess of the `StartReq` arm
(src/parser.rs lines 548-566); `none` is the `InvalidMethod` return. -/
def startReqMethod (ch : Nat) : Option HttpMethod :=
  if ch == 67 then some HttpMethod.Connect
  else if ch == 68 then some HttpMethod.Delete
  else if ch == 71 then some HttpMethod.Get
  else if ch == 72 then some HttpMethod.Head
  else if ch == 76 then some HttpMethod.Lock
  else if ch == 77 then some HttpMethod.MKCol
  else if ch == 78 then some HttpMethod.Notify
  else if ch == 79 then some HttpMethod.Options
  else if ch == 80 then some HttpMethod.Post
  else if ch == 82 then some HttpMethod.Report
  else if ch == 83 then some HttpMethod.Subscribe
  else if ch == 84 then some HttpMethod.Trace
  else if ch == 85 then some HttpMethod.Unlock
  else none

/-- Outcome of one byte of method matching: the space-terminated success,
a continuation carrying the (possibly forked) method guess, or
`InvalidMethod`. -/
inductive MethodStep
  | space
  | keep (m : Option HttpMethod)
  | bad
  deriving DecidableEq, Repr

/-- The method-disambiguation chain of the `ReqMethod` arm
(src/parser.rs lines 574-646) on the current method guess `mth`, matcher
position `idx` and byte `ch`: `bad` is the `InvalidMethod` return, `space`
the transition to `ReqSpacesBeforeUrl`, and `keep` continues (after the
trailing `self.index += 1`) with the given method guess. -/
def reqMethodStep (mth : Option HttpMethod) (idx ch : Nat) : MethodStep :=
  -- `self.method.unwrap()`: `method` is always set in this state
  let matcher := (mth.getD HttpMethod.Delete).bytes
  if ch == 32 ∧ idx == matcher.length then
    MethodStep.space
  else if idx < matcher.length ∧ ch == matcher.getD idx 0 then
    MethodStep.keep mth
  else if mth == some HttpMethod.Connect then
    if idx == 1 ∧ ch == 72 then MethodStep.keep (some HttpMethod.Checkout)
    else if idx == 2 ∧ ch == 80 then MethodStep.keep (some HttpMethod.Copy)
    else MethodStep.bad
  else if mth == some HttpMethod.MKCol then
    if idx == 1 ∧ ch == 79 then MethodStep.keep (some HttpMethod.Move)
    else if idx == 1 ∧ ch == 69 then MethodStep.keep (some HttpMethod.Merge)
    else if idx == 1 ∧ ch == 45 then MethodStep.keep (some HttpMethod.MSearch)
    else if idx == 2 ∧ ch == 65 then MethodStep.keep (some HttpMethod.MKActivity)
    else if idx == 3 ∧ ch == 65 then MethodStep.keep (some HttpMethod.MKCalendar)
    else MethodStep.bad
  else if mth == some HttpMethod.Subscribe then
    if idx == 1 ∧ ch == 69 then MethodStep.keep (some HttpMethod.Search)
    else MethodStep.bad
  else if idx == 1 ∧ mth == some HttpMethod.Post then
    if ch == 82 then MethodStep.keep (some HttpMethod.PropFind)
    else if ch == 85 then MethodStep.keep (some HttpMethod.Put)
    else if ch == 65 then MethodStep.keep (some HttpMethod.Patch)
    else MethodStep.bad
  else if idx == 2 then
    if mth == some HttpMethod.Put then
      if ch == 82 then MethodStep.keep (some HttpMethod.Purge) else MethodStep.bad
    else if mth == some HttpMethod.Unlock then
      if ch == 83 then MethodStep.keep (some HttpMethod.Unsubscribe) else MethodStep.bad
    else MethodStep.bad
  else if idx == 4 ∧ mth == some HttpMethod.PropFind ∧ ch == 80 then
    MethodStep.keep (some HttpMethod.PropPatch)
  else MethodStep.bad

/-- The body of the `match self.state` inside the per-byte loop of
`HttpParser::execute` (src/parser.rs lines 332-1343), for the byte `ch` at
position `index` of a buffer of length `len`.  The `nread` bump and
header-overflow check of the outer loop are not part of this dispatch. -/
def dispatch (cb : Callbacks) (len : Nat) (p : HttpParser)
    (m : Marks) (evs : List Event) (index ch : Nat) : DOut :=
  match p.state with
  | State.Dead =>
      if ch ≠ CR ∧ ch ≠ LF then
        DOut.ret { p with errno := some HttpErrno.ClosedConnection } evs index
      else DOut.adv p m evs index
  | State.StartReqOrRes =>
      if ch ≠ CR ∧ ch ≠ LF then
        let p := { p with flags := 0, content_length := ULLONG_MAX }
        if ch == 72 then
          let p := { p with state := State.ResOrRespH }
          let evs := evs ++ [Event.MessageBegin]
          if cb.on_message_begin p then DOut.adv p m evs index
          else DOut.ret { p with errno := some HttpErrno.CBMessageBegin } evs (index + 1)
        else
          DOut.retry { p with tp := HttpParserType.Request, state := State.StartReq }
            m evs index
      else DOut.adv p m evs index
  | State.ResOrRespH =>
      if ch == 84 then
        DOut.adv { p with tp := HttpParserType.Response, state := State.ResHT } m evs index
      else if ch ≠ 69 then
        DOut.ret { p with errno := some HttpErrno.InvalidConstant } evs index
      else
        DOut.adv { p with tp := HttpParserType.Request,
                          method := some HttpMethod.Head,
                          index := 2, state := State.ReqMethod } m evs index
  | State.StartRes =>
      let p := { p with flags := 0, content_length := ULLONG_MAX }
      if ch == 72 ∨ ch == 69 ∨ ch == CR ∨ ch == LF then
        let p :=
          if ch == 72 then { p with state := State.ResH }
          else if ch == 69 then { p with state := State.ResE }
          else p
        let evs := evs ++ [Event.MessageBegin]
        if cb.on_message_begin p then DOut.adv p m evs index
        else DOut.ret { p with errno := some HttpErrno.CBMessageBegin } evs (index + 1)
      else
        DOut.ret { p with errno := some HttpErrno.InvalidConstant } evs index
  | State.ResH =>
      if p.strict ∧ ch ≠ 84 then
        DOut.ret { p with errno := some HttpErrno.Strict } evs index
      else DOut.adv { p with state := State.ResHT } m evs index
  | State.ResHT =>
      if p.strict ∧ ch ≠ 84 then
        DOut.ret { p with errno := some HttpErrno.Strict } evs index
      else DOut.adv { p with state := State.ResHTT } m evs index
  | State.ResHTT =>
      if p.strict ∧ ch ≠ 80 then
        DOut.ret { p with errno := some HttpErrno.Strict } evs index
      else DOut.adv { p with state := State.ResHTTP } m evs index
  | State.ResHTTP =>
      if p.strict ∧ ch ≠ 47 then
        DOut.ret { p with errno := some HttpErrno.Strict } evs index
      else DOut.adv { p with response_type := some ResponseType.Http,
                             state := State.ResFirstHttpMajor } m evs index
  | State.ResE =>
      if p.strict ∧ ch ≠ 86 then
        DOut.ret { p with errno := some HttpErrno.Strict } evs index
      else DOut.adv { p with state := State.ResEV } m evs index
  | State.ResEV =>
      if p.strict ∧ ch ≠ 69 then
        DOut.ret { p with errno := some HttpErrno.Strict } evs index
      else DOut.adv { p with state := State.ResEVE } m evs index
  | State.ResEVE =>
      if p.strict ∧ ch ≠ 78 then
        DOut.ret { p with errno := some HttpErrno.Strict } evs index
      else DOut.adv { p with state := State.ResEVEN } m evs index
  | State.ResEVEN =>
      if p.strict ∧ ch ≠ 84 then
        DOut.ret { p with errno := some HttpErrno.Strict } evs index
      else DOut.adv { p with state := State.ResEVENT } m evs index
  | State.ResEVENT =>
      if p.strict ∧ ch ≠ 47 then
        DOut.ret { p with errno := some HttpErrno.Strict } evs index
      else DOut.adv { p with response_type := some ResponseType.Event,
                             state := State.ResFirstHttpMajor } m evs index
  | State.ResFirstHttpMajor =>
      if ¬is_num ch then
        DOut.ret { p with errno := some HttpErrno.InvalidVersion } evs index
      else
        DOut.adv { p with http_version := { p.http_version with major := ch - 48 },
                          state := State.ResHttpMajor } m evs index
  | State.ResHttpMajor =>
      if ch == 46 then DOut.adv { p with state := State.ResFirstHttpMinor } m evs index
      else if ¬is_num ch then
        DOut.ret { p with errno := some HttpErrno.InvalidVersion } evs index
      else
        -- u8 arithmetic: wraps at 256 (release-mode semantics)
        let p := { p with http_version :=
          { p.http_version with major := (p.http_version.major * 10 + (ch - 48)) % 256 } }
        if p.http_version.major > 99 then
          DOut.ret { p with errno := some HttpErrno.InvalidVersion } evs index
        else DOut.adv p m evs index
  | State.ResFirstHttpMinor =>
      if ¬is_num ch then
        DOut.ret { p with errno := some HttpErrno.InvalidVersion } evs index
      else
        DOut.adv { p with http_version := { p.http_version with minor := ch - 48 },
                          state := State.ResHttpMinor } m evs index
  | State.ResHttpMinor =>
      if ch == 32 then DOut.adv { p with state := State.ResFirstStatusCode } m evs index
      else if ¬is_num ch then
        DOut.ret { p with errno := some HttpErrno.InvalidVersion } evs index
      else
        let p := { p with http_version :=
          { p.http_version with minor := (p.http_version.minor * 10 + (ch - 48)) % 256 } }
        if p.http_version.minor > 99 then
          DOut.ret { p with errno := some HttpErrno.InvalidVersion } evs index
        else DOut.adv p m evs index
  | State.ResFirstStatusCode =>
      if ¬is_num ch then
        if ch ≠ 32 then
          DOut.ret { p with errno := some HttpErrno.InvalidStatus } evs index
        else DOut.adv p m evs index
      else
        DOut.adv { p with status_code := some (ch - 48),
                          state := State.ResStatusCode } m evs index
  | State.ResStatusCode =>
      if ¬is_num ch then
        if ch == 32 then DOut.adv { p with state := State.ResStatusStart } m evs index
        else if ch == CR then DOut.adv { p with state := State.ResLineAlmostDone } m evs index
        else if ch == LF then DOut.adv { p with state := State.HeaderFieldStart } m evs index
        else DOut.ret { p with errno := some HttpErrno.InvalidStatus } evs index
      else
        let status_code := (p.status_code.getD 0) * 10 + (ch - 48)
        let p := { p with status_code := some status_code }
        if status_code > 999 then
          DOut.ret { p with errno := some HttpErrno.InvalidStatus } evs index
        else DOut.adv p m evs index
  | State.ResStatusStart =>
      if ch == CR then DOut.adv { p with state := State.ResLineAlmostDone } m evs index
      else if ch == LF then DOut.adv { p with state := State.HeaderFieldStart } m evs index
      else
        let m := { m with status :=
          match m.status with | none => some index | some k => some k }
        DOut.adv { p with state := State.ResStatus, index := 0 } m evs index
  | State.ResStatus =>
      if ch == CR ∨ ch == LF then
        let p := { p with state :=
          if ch == CR then State.ResLineAlmostDone else State.HeaderFieldStart }
        match m.status with
        | some k =>
            let evs := evs ++ [Event.StatusSpan k index]
            if cb.on_status p k index then
              DOut.adv p { m with status := none } evs index
            else
              DOut.ret { p with errno := some HttpErrno.CBStatus } evs (index + 1)
        | none => DOut.adv p m evs index
      else DOut.adv p m evs index
  | State.ResLineAlmostDone =>
      if p.strict ∧ ch ≠ LF then
        DOut.ret { p with errno := some HttpErrno.Strict } evs index
      else DOut.adv { p with state := State.HeaderFieldStart } m evs index
  | State.StartReq =>
      if ch ≠ CR ∧ ch ≠ LF then
        let p := { p with flags := 0, content_length := ULLONG_MAX }
        if ¬is_alpha ch then
          DOut.ret { p with errno := some HttpErrno.InvalidMethod } evs index
        else
          match startReqMethod ch with
          | none => DOut.ret { p with errno := some HttpErrno.InvalidMethod } evs index
          | some mth =>
              let p := { p with method := some mth, index := 1,
                                state := State.ReqMethod }
              let evs := evs ++ [Event.MessageBegin]
              if cb.on_message_begin p then DOut.adv p m evs index
              else DOut.ret { p with errno := some HttpErrno.CBMessageBegin } evs (index + 1)
      else DOut.adv p m evs index
  | State.ReqMethod =>
      match reqMethodStep p.method p.index ch with
      | MethodStep.bad =>
          DOut.ret { p with errno := some HttpErrno.InvalidMethod } evs index
      | MethodStep.space =>
          DOut.adv { p with state := State.ReqSpacesBeforeUrl,
                            index := p.index + 1 } m evs index
      | MethodStep.keep mth =>
          DOut.adv { p with method := mth, index := p.index + 1 } m evs index
  | State.ReqSpacesBeforeUrl =>
      if ch ≠ 32 then
        let m := { m with url :=
          match m.url with | none => some index | some k => some k }
        let s0 := if p.method == some HttpMethod.Connect then State.ReqServerStart
                  else p.state
        let p := { p with state := parse_url_char p.strict s0 ch }
        if p.state == State.Dead then
          DOut.ret { p with errno := some HttpErrno.InvalidUrl } evs index
        else DOut.adv p m evs index
      else DOut.adv p m evs index
  | State.ReqSchema | State.ReqSchemaSlash | State.ReqSchemaSlashSlash
  | State.ReqServerStart =>
      if ch == 32 ∨ ch == CR ∨ ch == LF then
        DOut.ret { p with errno := some HttpErrno.InvalidUrl } evs index
      else
        let p := { p with state := parse_url_char p.strict p.state ch }
        if p.state == State.Dead then
          DOut.ret { p with errno := some HttpErrno.InvalidUrl } evs index
        else DOut.adv p m evs index
  | State.ReqServer | State.ReqServerWithAt | State.ReqPath
  | State.ReqQueryStringStart | State.ReqQueryString
  | State.ReqFragmentStart | State.ReqFragment =>
      if ch == 32 then
        let p := { p with state := State.ReqHttpStart }
        match m.url with
        | some k =>
            let evs := evs ++ [Event.UrlSpan k index]
            if cb.on_url p k index then
              DOut.adv p { m with url := none } evs index
            else DOut.ret { p with errno := some HttpErrno.CBUrl } evs (index + 1)
        | none => DOut.adv p m evs index
      else if ch == CR ∨ ch == LF then
        let p := { p with http_version := { major := 0, minor := 9 },
                          state := if ch == CR then State.ReqLineAlmostDone
                                   else State.HeaderFieldStart }
        match m.url with
        | some k =>
            let evs := evs ++ [Event.UrlSpan k index]
            if cb.on_url p k index then
              DOut.adv p { m with url := none } evs index
            else DOut.ret { p with errno := some HttpErrno.CBUrl } evs (index + 1)
        | none => DOut.adv p m evs index
      else
        let p := { p with state := parse_url_char p.strict p.state ch }
        if p.state == State.Dead then
          DOut.ret { p with errno := some HttpErrno.InvalidUrl } evs index
        else DOut.adv p m evs index
  | State.ReqHttpStart =>
      if ch == 72 then DOut.adv { p with state := State.ReqHttpH } m evs index
      else if ch == 32 then DOut.adv p m evs index
      else DOut.ret { p with errno := some HttpErrno.InvalidConstant } evs index
  | State.ReqHttpH =>
      if p.strict ∧ ch ≠ 84 then
        DOut.ret { p with errno := some HttpErrno.Strict } evs index
      else DOut.adv { p with state := State.ReqHttpHT } m evs index
  | State.ReqHttpHT =>
      if p.strict ∧ ch ≠ 84 then
        DOut.ret { p with errno := some HttpErrno.Strict } evs index
      else DOut.adv { p with state := State.ReqHttpHTT } m evs index
  | State.ReqHttpHTT =>
      if p.strict ∧ ch ≠ 80 then
        DOut.ret { p with errno := some HttpErrno.Strict } evs index
      else DOut.adv { p with state := State.ReqHttpHTTP } m evs index
  | State.ReqHttpHTTP =>
      if p.strict ∧ ch ≠ 47 then
        DOut.ret { p with errno := some HttpErrno.Strict } evs index
      else DOut.adv { p with state := State.ReqFirstHttpMajor } m evs index
  | State.ReqFirstHttpMajor =>
      if ch < 49 ∨ ch > 57 then
        DOut.ret { p with errno := some HttpErrno.InvalidVersion } evs index
      else
        DOut.adv { p with http_version := { p.http_version with major := ch - 48 },
                          state := State.ReqHttpMajor } m evs index
  | State.ReqHttpMajor =>
      if ch == 46 then DOut.adv { p with state := State.ReqFirstHttpMinor } m evs index
      else if ¬is_num ch then
        DOut.ret { p with errno := some HttpErrno.InvalidVersion } evs index
      else
        let p := { p with http_version :=
          { p.http_version with major := (p.http_version.major * 10 + (ch - 48)) % 256 } }
        if p.http_version.major > 99 then
          DOut.ret { p with errno := some HttpErrno.InvalidVersion } evs index
        else DOut.adv p m evs index
  | State.ReqFirstHttpMinor =>
      if ¬is_num ch then
        DOut.ret { p with errno := some HttpErrno.InvalidVersion } evs index
      else
        DOut.adv { p with http_version := { p.http_version with minor := ch - 48 },
                          state := State.ReqHttpMinor } m evs index
  | State.ReqHttpMinor =>
      if ch == CR then DOut.adv { p with state := State.ReqLineAlmostDone } m evs index
      else if ch == LF then DOut.adv { p with state := State.HeaderFieldStart } m evs index
      else if is_num ch then
        let p := { p with http_version :=
          { p.http_version with minor := (p.http_version.minor * 10 + (ch - 48)) % 256 } }
        if p.http_version.minor > 99 then
          DOut.ret { p with errno := some HttpErrno.InvalidVersion } evs index
        else DOut.adv p m evs index
      else DOut.ret { p with errno := some HttpErrno.InvalidVersion } evs index
  | State.ReqLineAlmostDone =>
      if ch ≠ LF then
        DOut.ret { p with errno := some HttpErrno.LFExpected } evs index
      else DOut.adv { p with state := State.HeaderFieldStart } m evs index
  | State.HeaderFieldStart =>
      if ch == CR then DOut.adv { p with state := State.HeadersAlmostDone } m evs index
      else if ch == LF then
        DOut.retry { p with state := State.HeadersAlmostDone } m evs index
      else if ¬is_header_char p.strict ch then
        DOut.ret { p with errno := some HttpErrno.InvalidHeaderToken } evs index
      else
        let m := { m with header_field :=
          match m.header_field with | none => some index | some k => some k }
        DOut.adv { p with index := 0, state := State.HeaderField,
                          header_state :=
                            if ch == 99 ∨ ch == 67 then HeaderState.C
                            else if ch == 112 ∨ ch == 80 then HeaderState.MatchingProxyConnection
                            else if ch == 116 ∨ ch == 84 then HeaderState.MatchingTransferEncoding
                            else if ch == 117 ∨ ch == 85 then HeaderState.MatchingUpgrade
                            else HeaderState.General } m evs index
  | State.HeaderField =>
      if is_header_char p.strict ch then
        let c := lower ch
        match p.header_state with
        | HeaderState.General => DOut.adv p m evs index
        | HeaderState.C =>
            DOut.adv { p with index := p.index + 1,
                              header_state := if c == 111 then HeaderState.CO else HeaderState.General }
              m evs index
        | HeaderState.CO =>
            DOut.adv { p with index := p.index + 1,
                              header_state := if c == 110 then HeaderState.CON else HeaderState.General }
              m evs index
        | HeaderState.CON =>
            DOut.adv { p with index := p.index + 1,
                              header_state :=
                                if c == 110 then HeaderState.MatchingConnection
                                else if c == 116 then HeaderState.MatchingContentLength
                                else HeaderState.General }
              m evs index
        | HeaderState.MatchingConnection =>
            DOut.adv { p with index := p.index + 1,
                              header_state := matchKw CONNECTION HeaderState.Connection
                                HeaderState.MatchingConnection (p.index + 1) c }
              m evs index
        | HeaderState.MatchingProxyConnection =>
            DOut.adv { p with index := p.index + 1,
                              header_state := matchKw PROXY_CONNECTION HeaderState.Connection
                                HeaderState.MatchingProxyConnection (p.index + 1) c }
              m evs index
        | HeaderState.MatchingContentLength =>
            DOut.adv { p with index := p.index + 1,
                              header_state := matchKw CONTENT_LENGTH HeaderState.ContentLength
                                HeaderState.MatchingContentLength (p.index + 1) c }
              m evs index
        | HeaderState.MatchingTransferEncoding =>
            DOut.adv { p with index := p.index + 1,
                              header_state := matchKw TRANSFER_ENCODING HeaderState.TransferEncoding
                                HeaderState.MatchingTransferEncoding (p.index + 1) c }
              m evs index
        | HeaderState.MatchingUpgrade =>
            DOut.adv { p with index := p.index + 1,
                              header_state := matchKw UPGRADE HeaderState.Upgrade
                                HeaderState.MatchingUpgrade (p.index + 1) c }
              m evs index
        | HeaderState.Connection | HeaderState.ContentLength
        | HeaderState.TransferEncoding | HeaderState.Upgrade =>
            if ch ≠ 32 then
              DOut.adv { p with header_state := HeaderState.General } m evs index
            else DOut.adv p m evs index
        | _ =>
            -- the source aborts here ("Unknown header_state"); unreachable
            DOut.adv p m evs index
      else if ch == 58 then
        let p := { p with state := State.HeaderValueDiscardWs }
        match m.header_field with
        | some k =>
            let evs := evs ++ [Event.FieldSpan k index]
            if cb.on_header_field p k index then
              DOut.adv p { m with header_field := none } evs index
            else DOut.ret { p with errno := some HttpErrno.CBHeaderField } evs (index + 1)
        | none => DOut.adv p m evs index
      else
        DOut.ret { p with errno := some HttpErrno.InvalidHeaderToken } evs index
  | State.HeaderValueDiscardWs =>
      if ch == 32 ∨ ch == 9 ∨ ch == CR ∨ ch == LF then
        if ch == 32 ∨ ch == 9 then DOut.adv p m evs index
        else if ch == CR then
          DOut.adv { p with state := State.HeaderValueDiscardWsAlmostDone } m evs index
        else DOut.adv { p with state := State.HeaderValueDiscardLws } m evs index
      else headerValueStartStep p m evs index ch
  | State.HeaderValueStart =>
      headerValueStartStep p m evs index ch
  | State.HeaderValue =>
      if ch == CR then
        let p := { p with state := State.HeaderAlmostDone }
        match m.header_value with
        | some k =>
            let evs := evs ++ [Event.ValueSpan k index]
            if cb.on_header_value p k index then
              DOut.adv p { m with header_value := none } evs index
            else DOut.ret { p with errno := some HttpErrno.CBHeaderValue } evs (index + 1)
        | none => DOut.adv p m evs index
      else if ch == LF then
        let p := { p with state := State.HeaderAlmostDone }
        match m.header_value with
        | some k =>
            let evs := evs ++ [Event.ValueSpan k index]
            if cb.on_header_value p k index then
              DOut.retry p { m with header_value := none } evs index
            else DOut.ret { p with errno := some HttpErrno.CBHeaderValue } evs index
        | none => DOut.retry p m evs index
      else
        let c := lower ch
        match p.header_state with
        | HeaderState.General => DOut.adv p m evs index
        | HeaderState.Connection | HeaderState.TransferEncoding =>
            -- the source aborts here ("Shouldn't get here"); unreachable
            DOut.adv p m evs index
        | HeaderState.ContentLength =>
            if ch ≠ 32 then
              if ¬is_num ch then
                DOut.ret { p with errno := some HttpErrno.InvalidContentLength } evs index
              else if (ULLONG_MAX - 10) / 10 < p.content_length then
                DOut.ret { p with errno := some HttpErrno.InvalidContentLength } evs index
              else
                DOut.adv { p with content_length := p.content_length * 10 + (ch - 48) }
                  m evs index
            else DOut.adv p m evs index
        | HeaderState.MatchingTransferEncodingChunked =>
            DOut.adv { p with index := p.index + 1,
                              header_state := matchKw CHUNKED HeaderState.TransferEncodingChunked
                                HeaderState.MatchingTransferEncodingChunked (p.index + 1) c }
              m evs index
        | HeaderState.MatchingConnectionKeepAlive =>
            DOut.adv { p with index := p.index + 1,
                              header_state := matchKw KEEP_ALIVE HeaderState.ConnectionKeepAlive
                                HeaderState.MatchingConnectionKeepAlive (p.index + 1) c }
              m evs index
        | HeaderState.MatchingConnectionClose =>
            DOut.adv { p with index := p.index + 1,
                              header_state := matchKw CLOSE HeaderState.ConnectionClose
                                HeaderState.MatchingConnectionClose (p.index + 1) c }
              m evs index
        | HeaderState.TransferEncodingChunked | HeaderState.ConnectionKeepAlive
        | HeaderState.ConnectionClose =>
            if ch ≠ 32 then
              DOut.adv { p with header_state := HeaderState.General } m evs index
            else DOut.adv p m evs index
        | _ =>
            DOut.adv { p with state := State.HeaderValue,
                              header_state := HeaderState.General }
              m evs index
  | State.HeaderAlmostDone =>
      if p.strict ∧ ch ≠ LF then
        DOut.ret { p with errno := some HttpErrno.Strict } evs index
      else DOut.adv { p with state := State.HeaderValueLws } m evs index
  | State.HeaderValueLws =>
      if ch == 32 ∨ ch == 9 then
        DOut.retry { p with state := State.HeaderValueStart } m evs index
      else
        let p :=
          match p.header_state with
          | HeaderState.ConnectionKeepAlive =>
              { p with flags := p.flags ||| Flags.ConnectionKeepAlive }
          | HeaderState.ConnectionClose =>
              { p with flags := p.flags ||| Flags.ConnectionClose }
          | HeaderState.TransferEncodingChunked =>
              { p with flags := p.flags ||| Flags.Chunked }
          | _ => p
        DOut.retry { p with state := State.HeaderFieldStart } m evs index
  | State.HeaderValueDiscardWsAlmostDone =>
      if p.strict ∧ ch ≠ LF then
        DOut.ret { p with errno := some HttpErrno.Strict } evs index
      else DOut.adv { p with state := State.HeaderValueDiscardLws } m evs index
  | State.HeaderValueDiscardLws =>
      if ch == 32 ∨ ch == 9 then
        DOut.adv { p with state := State.HeaderValueDiscardWs } m evs index
      else
        let m := { m with header_value :=
          match m.header_value with | none => some index | some k => some k }
        let p := { p with state := State.HeaderFieldStart }
        match m.header_value with
        | some k =>
            let evs := evs ++ [Event.ValueSpan k index]
            if cb.on_header_value p k index then
              DOut.retry p { m with header_value := none } evs index
            else DOut.ret { p with errno := some HttpErrno.CBHeaderValue } evs index
        | none => DOut.retry p m evs index
  | State.HeadersAlmostDone =>
      if p.strict ∧ ch ≠ LF then
        DOut.ret { p with errno := some HttpErrno.Strict } evs index
      else if (p.flags &&& Flags.Trailing) ≠ 0 then
        let p := p.new_message
        let evs := evs ++ [Event.MessageComplete]
        if cb.on_message_complete p then DOut.adv p m evs index
        else DOut.ret { p with errno := some HttpErrno.CBMessageComplete } evs (index + 1)
      else
        let p := { p with state := State.HeadersDone,
                          upgrade := ((p.flags &&& Flags.Upgrade) ≠ 0) ∨
                      p.method == some HttpMethod.Connect }
        let evs := evs ++ [Event.HeadersComplete]
        match cb.on_headers_complete p with
        | some ParseAction.None => DOut.retry p m evs index
        | some ParseAction.SkipBody =>
            DOut.retry { p with flags := p.flags ||| Flags.SkipBody } m evs index
        | none =>
            DOut.ret { p with errno := some HttpErrno.CBHeadersComplete } evs index
  | State.HeadersDone =>
      if p.strict ∧ ch ≠ LF then
        DOut.ret { p with errno := some HttpErrno.Strict } evs index
      else
        let p := { p with nread := 0 }
        if p.upgrade then
          let p := p.new_message
          let evs := evs ++ [Event.MessageComplete]
          if cb.on_message_complete p then DOut.ret p evs (index + 1)
          else DOut.ret { p with errno := some HttpErrno.CBMessageComplete } evs (index + 1)
        else if (p.flags &&& Flags.SkipBody) ≠ 0 then
          let p := p.new_message
          let evs := evs ++ [Event.MessageComplete]
          if cb.on_message_complete p then DOut.adv p m evs index
          else DOut.ret { p with errno := some HttpErrno.CBMessageComplete } evs (index + 1)
        else if (p.flags &&& Flags.Chunked) ≠ 0 then
          DOut.adv { p with state := State.ChunkSizeStart } m evs index
        else if p.content_length == 0 then
          let p := p.new_message
          let evs := evs ++ [Event.MessageComplete]
          if cb.on_message_complete p then DOut.adv p m evs index
          else DOut.ret { p with errno := some HttpErrno.CBMessageComplete } evs (index + 1)
        else if p.content_length ≠ ULLONG_MAX then
          DOut.adv { p with state := State.BodyIdentity } m evs index
        else if p.tp == HttpParserType.Request ∨ ¬p.http_message_needs_eof then
          let p := p.new_message
          let evs := evs ++ [Event.MessageComplete]
          if cb.on_message_complete p then DOut.adv p m evs index
          else DOut.ret { p with errno := some HttpErrno.CBMessageComplete } evs (index + 1)
        else
          DOut.adv { p with state := State.BodyIdentityEof } m evs index
  | State.BodyIdentity =>
      let to_read := min p.content_length (len - index)
      let m := { m with body :=
        match m.body with | none => some index | some k => some k }
      let p := { p with content_length := p.content_length - to_read }
      let index := index + (to_read - 1)
      if p.content_length == 0 then
        let p := { p with state := State.MessageDone }
        match m.body with
        | some k =>
            let evs := evs ++ [Event.BodySpan k (index + 1)]
            if cb.on_body p k (index + 1) then
              DOut.retry p { m with body := none } evs index
            else DOut.ret { p with errno := some HttpErrno.CBBody } evs index
        | none => DOut.retry p m evs index
      else DOut.adv p m evs index
  | State.BodyIdentityEof =>
      let m := { m with body :=
        match m.body with | none => some index | some k => some k }
      DOut.adv p m evs (len - 1)
  | State.MessageDone =>
      let p := p.new_message
      let evs := evs ++ [Event.MessageComplete]
      if cb.on_message_complete p then DOut.adv p m evs index
      else DOut.ret { p with errno := some HttpErrno.CBMessageComplete } evs (index + 1)
  | State.ChunkSizeStart =>
      match unhex_value ch with
      | none => DOut.ret { p with errno := some HttpErrno.InvalidChunkSize } evs index
      | some v =>
          DOut.adv { p with content_length := v, state := State.ChunkSize } m evs index
  | State.ChunkSize =>
      if ch == CR then
        DOut.adv { p with state := State.ChunkSizeAlmostDone } m evs index
      else
        match unhex_value ch with
        | none =>
            if ch == 59 ∨ ch == 32 then
              DOut.adv { p with state := State.ChunkParameters } m evs index
            else
              DOut.ret { p with errno := some HttpErrno.InvalidChunkSize } evs index
        | some v =>
            if (ULLONG_MAX - 16) / 16 < p.content_length then
              DOut.ret { p with errno := some HttpErrno.InvalidContentLength } evs index
            else
              DOut.adv { p with content_length := p.content_length * 16 + v } m evs index
  | State.ChunkParameters =>
      if ch == CR then
        DOut.adv { p with state := State.ChunkSizeAlmostDone } m evs index
      else DOut.adv p m evs index
  | State.ChunkSizeAlmostDone =>
      if p.strict ∧ ch ≠ LF then
        DOut.ret { p with errno := some HttpErrno.Strict } evs index
      else
        let p := { p with nread := 0 }
        if p.content_length == 0 then
          DOut.adv { p with flags := p.flags ||| Flags.Trailing,
                            state := State.HeaderFieldStart }
            m evs index
        else DOut.adv { p with state := State.ChunkData } m evs index
  | State.ChunkData =>
      let to_read := min p.content_length (len - index)
      let m := { m with body :=
        match m.body with | none => some index | some k => some k }
      let p := { p with content_length := p.content_length - to_read }
      let index := index + (to_read - 1)
      if p.content_length == 0 then
        DOut.adv { p with state := State.ChunkDataAlmostDone } m evs index
      else DOut.adv p m evs index
  | State.ChunkDataAlmostDone =>
      if p.strict ∧ ch ≠ CR then
        DOut.ret { p with errno := some HttpErrno.Strict } evs index
      else
        let p := { p with state := State.ChunkDataDone }
        match m.body with
        | some k =>
            let evs := evs ++ [Event.BodySpan k index]
            if cb.on_body p k index then
              DOut.adv p { m with body := none } evs index
            else DOut.ret { p with errno := some HttpErrno.CBBody } evs (index + 1)
        | none => DOut.adv p m evs index
  | State.ChunkDataDone =>
      if p.strict ∧ ch ≠ LF then
        DOut.ret { p with errno := some HttpErrno.Strict } evs index
      else
        DOut.adv { p with nread := 0, state := State.ChunkSizeStart } m evs index

/-- Result of one `execute` call: the mutated parser, the returned
consumed-count and the callback invocations in order. -/
structure ExecResult where
  p : HttpParser
  count : Nat
  events : List Event
  deriving DecidableEq, Repr

/-- The leftover-mark flush at the end of `HttpParser::execute`
(src/parser.rs lines 1353-1388): at buffer end (`index = len`) each
still-set mark emits its span callback; a callback error sets the
corresponding errno and returns `len`; otherwise `len` is returned. -/
def flushOne (mark : Option Nat) (mk : Nat → Nat → Event)
    (call : HttpParser → Nat → Nat → Bool) (err : HttpErrno) (len : Nat)
    (p : HttpParser) (evs : List Event) : (HttpParser × List Event) × Bool :=
  match mark with
  | none => ((p, evs), true)
  | some k =>
      let evs := evs ++ [mk k len]
      if call p k len then ((p, evs), true)
      else (({ p with errno := some err }, evs), false)

/-- The leftover-mark flush at the end of `HttpParser::execute`
(src/parser.rs lines 1353-1388): at buffer end (`index = len`) each
still-set mark emits its span callback; a callback error sets the
corresponding errno and stops the flush; `len` is returned in every
case. -/
def flushMarks (cb : Callbacks) (p : HttpParser) (m : Marks)
    (evs : List Event) (len : Nat) : ExecResult :=
  let r1 := flushOne m.header_field Event.FieldSpan
    cb.on_header_field HttpErrno.CBHeaderField len p evs
  if r1.2 then
    let r2 := flushOne m.header_value Event.ValueSpan
      cb.on_header_value HttpErrno.CBHeaderValue len r1.1.1 r1.1.2
    if r2.2 then
      let r3 := flushOne m.url Event.UrlSpan
        cb.on_url HttpErrno.CBUrl len r2.1.1 r2.1.2
      if r3.2 then
        let r4 := flushOne m.body Event.BodySpan
          cb.on_body HttpErrno.CBBody len r3.1.1 r3.1.2
        if r4.2 then
          let r5 := flushOne m.status Event.StatusSpan
            cb.on_status HttpErrno.CBStatus len r4.1.1 r4.1.2
          ⟨r5.1.1, len, r5.1.2⟩
        else ⟨r4.1.1, len, r4.1.2⟩
      else ⟨r3.1.1, len, r3.1.2⟩
    else ⟨r2.1.1, len, r2.1.2⟩
  else ⟨r1.1.1, len, r1.1.2⟩

/-- The two loops of `HttpParser::execute` (src/parser.rs lines 307-1351),
fuel-recursive.  `fetch = true` is the head of the outer `while` (read the
byte at `index`, bump `nread` in header states and check the ceiling);
`fetch = false` dispatches the already-read byte `ch`, re-dispatching on
`DOut.retry` and advancing `index` on `DOut.adv`.  The fuel `8*(len+1)`
given by `execute` strictly exceeds the at-most-five dispatches any byte
can need, so the fuel-exhaustion fallback is never reached. -/
def execGo (cb : Callbacks) (data : List Nat) (len : Nat) :
    Nat → Bool → Nat → HttpParser → Marks → List Event → Nat → ExecResult
  | 0, _, _, p, _, evs, _ => ⟨p, len, evs⟩
  | fuel + 1, true, _, p, m, evs, index =>
      if index < len then
        let ch := data.getD index 0
        if p.state.is_header_state then
          let p := { p with nread := p.nread + 1 }
          if p.nread > HTTP_MAX_HEADER_SIZE then
            ⟨{ p with errno := some HttpErrno.HeaderOverflow }, index, evs⟩
          else execGo cb data len fuel false ch p m evs index
        else execGo cb data len fuel false ch p m evs index
      else flushMarks cb p m evs len
  | fuel + 1, false, ch, p, m, evs, index =>
      match dispatch cb len p m evs index ch with
      | DOut.ret p evs c => ⟨p, c, evs⟩
      | DOut.retry p m evs i => execGo cb data len fuel false ch p m evs i
      | DOut.adv p m evs i => execGo cb data len fuel true ch p m evs (i + 1)

/-- `HttpParser::execute` from src/parser.rs: the sticky-errno early
return, the empty-input (EOF) handling, the initial re-marking of a region
that straddles buffers, and the byte loop. -/
def HttpParser.execute (p : HttpParser) (cb : Callbacks) (data : List Nat) :
    ExecResult :=
  let len := data.length
  if p.errno.isSome then ⟨p, 0, []⟩
  else if len == 0 then
    match p.state with
    | State.BodyIdentityEof =>
        let evs := [Event.MessageComplete]
        if cb.on_message_complete p then ⟨p, 0, evs⟩
        else ⟨{ p with errno := some HttpErrno.CBMessageComplete }, 0, evs⟩
    | State.Dead | State.StartReqOrRes | State.StartReq | State.StartRes =>
        ⟨p, 0, []⟩
    | _ => ⟨{ p with errno := some HttpErrno.InvalidEofState }, 0, []⟩
  else
    let m : Marks :=
      { header_field := if p.state == State.HeaderField then some 0 else none
        header_value := if p.state == State.HeaderValue then some 0 else none
        url := match p.state with
          | State.ReqPath | State.ReqSchema | State.ReqSchemaSlash
          | State.ReqSchemaSlashSlash | State.ReqServerStart | State.ReqServer
          | State.ReqServerWithAt | State.ReqQueryStringStart
          | State.ReqQueryString | State.ReqFragmentStart
          | State.ReqFragment => some 0
          | _ => none
        body := none
        status := if p.state == State.ResStatus then some 0 else none }
    execGo cb data len (8 * (len + 1)) true 0 p m [] 0

/-- The parser component of a dispatch outcome. -/
def DOut.parser : DOut → HttpParser
  | DOut.ret p _ _ => p
  | DOut.retry p _ _ _ => p
  | DOut.adv p _ _ _ => p

/-- Written from the spec's words for claim C2 (including its sharpened
"major ≥ 2 uses the ≥ 1.1 rule"): keep-alive on version ≥ 1.1
(lexicographically) unless `ConnectionClose` is set, on earlier versions
only with `ConnectionKeepAlive`, and only if no EOF is needed. -/
def should_keep_alive_claim (p : HttpParser) : Bool :=
  (if p.http_version.major > 1 ∨
      (p.http_version.major = 1 ∧ p.http_version.minor ≥ 1) then
    !((p.flags &&& Flags.ConnectionClose) ≠ 0)
  else
    (p.flags &&& Flags.ConnectionKeepAlive) ≠ 0)
  && !p.http_message_needs_eof

/-- Written from the spec's words for the amended claim C2: the first rule
applies exactly when major ≥ 1 and minor ≥ 1 (so HTTP/2.0 falls under the
keep-alive-flag rule). -/
def should_keep_alive_spec (p : HttpParser) : Bool :=
  (if p.http_version.major ≥ 1 ∧ p.http_version.minor ≥ 1 then
    !((p.flags &&& Flags.ConnectionClose) ≠ 0)
  else
    (p.flags &&& Flags.ConnectionKeepAlive) ≠ 0)
  && !p.http_message_needs_eof

/-- Written from the spec's words for claim C6: EOF framing is needed
exactly for non-requests with status outside 1xx/204/304, no SkipBody, no
chunking and no Content-Length. -/
def needs_eof_spec (p : HttpParser) : Bool :=
  if p.tp = HttpParserType.Request then false
  else
    let s := p.status_code.getD 0
    if (100 ≤ s ∧ s ≤ 199) ∨ s = 204 ∨ s = 304 ∨
        (p.flags &&& Flags.SkipBody) ≠ 0 then false
    else if (p.flags &&& Flags.Chunked) ≠ 0 ∨ p.content_length ≠ ULLONG_MAX then
      false
    else true

/-- The per-dispatch bookkeeping facts the driver induction needs: every
early return stays within the buffer and, unless an errno was just set, is
the upgrade return; retries and advances stay strictly inside the buffer
and change neither `errno` nor increase `nread`. -/
def DOutOK (len _idx : Nat) (p : HttpParser) : DOut → Prop
  | DOut.ret p' _ c =>
      c ≤ len ∧ p'.nread ≤ p.nread ∧
        (p'.errno = none → p.errno = none ∧ p'.upgrade = true)
  | DOut.retry p' _ _ i => i < len ∧ p'.nread ≤ p.nread ∧ p'.errno = p.errno
  | DOut.adv p' _ _ i => i < len ∧ p'.nread ≤ p.nread ∧ p'.errno = p.errno

theorem flushOne_ok (mark : Option Nat) (mk : Nat → Nat → Event)
    (call : HttpParser → Nat → Nat → Bool) (err : HttpErrno) (len : Nat)
    (p : HttpParser) (evs : List Event) :
    (flushOne mark mk call err len p evs).1.1 = p ∨
      (flushOne mark mk call err len p evs).1.1 = { p with errno := some err } := by
  unfold flushOne
  rcases mark with _ | k
  · exact Or.inl rfl
  · dsimp only
    split
    · exact Or.inl rfl
    · exact Or.inr rfl

set_option maxHeartbeats 1000000 in
theorem flushMarks_ok (cb : Callbacks) (p : HttpParser) (m : Marks)
    (evs : List Event) (len : Nat) :
    (flushMarks cb p m evs len).count = len ∧
      (flushMarks cb p m evs len).p.nread = p.nread ∧
      ((flushMarks cb p m evs len).p.errno = none → p.errno = none) := by
  have hN : ∀ mark mk call err ln (q : HttpParser) es,
      (flushOne mark mk call err ln q es).1.1.nread = q.nread := by
    intro mark mk call err ln q es
    rcases flushOne_ok mark mk call err ln q es with e | e <;> rw [e]
  have hE : ∀ mark mk call err ln (q : HttpParser) es,
      (flushOne mark mk call err ln q es).1.1.errno = none → q.errno = none := by
    intro mark mk call err ln q es h
    rcases flushOne_ok mark mk call err ln q es with e | e <;> rw [e] at h
    · exact h
    · simp at h
  unfold flushMarks
  dsimp only
  repeat' split
  all_goals
    refine ⟨rfl, by simp only [hN], fun h => ?_⟩
  all_goals
    repeat' first
      | exact h
      | replace h := hE _ _ _ _ _ _ _ h

theorem headerValueStartStep_ok (len : Nat) (p : HttpParser) (m : Marks)
    (evs : List Event) (index ch : Nat) (h : index < len) :
    DOutOK len index p (headerValueStartStep p m evs index ch) := by
  unfold headerValueStartStep
  dsimp only
  cases p.header_state <;> (repeat' split) <;>
    first
      | exact ⟨h, Nat.le_refl _, rfl⟩
      | exact ⟨Nat.le_of_lt h, Nat.le_refl _, fun hc => by simp at hc⟩

set_option maxHeartbeats 4000000 in
theorem dispatch_ok (cb : Callbacks) (len : Nat) (p : HttpParser) (m : Marks)
    (evs : List Event) (index ch : Nat) (h : index < len) :
    DOutOK len index p (dispatch cb len p m evs index ch) := by
  unfold dispatch
  cases hst : p.state
  case HeaderValueStart => exact headerValueStartStep_ok len p m evs index ch h
  case HeaderValueDiscardWs =>
    dsimp only
    split
    · repeat' split
      all_goals exact ⟨h, Nat.le_refl _, rfl⟩
    · exact headerValueStartStep_ok len p m evs index ch h
  case ReqMethod =>
    dsimp only
    cases reqMethodStep p.method p.index ch with
    | bad => exact ⟨Nat.le_of_lt h, Nat.le_refl _, fun hc => by simp at hc⟩
    | space => exact ⟨h, Nat.le_refl _, rfl⟩
    | keep mth => exact ⟨h, Nat.le_refl _, rfl⟩
  case StartReq =>
    dsimp only
    split
    case isFalse => exact ⟨h, Nat.le_refl _, rfl⟩
    case isTrue =>
      split
      case isTrue => exact ⟨Nat.le_of_lt h, Nat.le_refl _, fun hc => by simp at hc⟩
      case isFalse =>
        cases startReqMethod ch with
        | none => exact ⟨Nat.le_of_lt h, Nat.le_refl _, fun hc => by simp at hc⟩
        | some mth =>
            dsimp only
            split
            · exact ⟨h, Nat.le_refl _, rfl⟩
            · exact ⟨by omega, Nat.le_refl _, fun hc => by simp at hc⟩
  all_goals dsimp only
  all_goals repeat' split
  all_goals simp only [DOutOK]
  all_goals
    refine ⟨?_, ?_, ?_⟩ <;>
      first
        | omega
        | exact Nat.le_refl _
        | exact Nat.zero_le _
        | rfl
        | (intro hc; simp at hc)
        | (simp [HttpParser.new_message]; done)
        | (intro hc; exact ⟨hc, by assumption⟩)

/-- Driver induction: the loop never returns a count beyond `len`; an
error-free result with a short count is an upgrade exit; `errno` is never
cleared; and an in-bounds `nread` stays within the header ceiling on every
error-free run. -/
theorem execGo_ok (cb : Callbacks) (data : List Nat) (len : Nat) :
    ∀ (fuel : Nat) (fetch : Bool) (ch : Nat) (p : HttpParser) (m : Marks)
      (evs : List Event) (index : Nat),
      (fetch = true → index ≤ len) → (fetch = false → index < len) →
      (execGo cb data len fuel fetch ch p m evs index).count ≤ len ∧
      ((execGo cb data len fuel fetch ch p m evs index).p.errno = none →
        (execGo cb data len fuel fetch ch p m evs index).p.upgrade = true ∨
          (execGo cb data len fuel fetch ch p m evs index).count = len) ∧
      ((execGo cb data len fuel fetch ch p m evs index).p.errno = none →
        p.errno = none) ∧
      (p.nread ≤ HTTP_MAX_HEADER_SIZE →
        (execGo cb data len fuel fetch ch p m evs index).p.errno = none →
        (execGo cb data len fuel fetch ch p m evs index).p.nread ≤
          HTTP_MAX_HEADER_SIZE) := by
  intro fuel
  induction fuel with
  | zero =>
      intro fetch ch p m evs index _ _
      exact ⟨Nat.le_refl _, fun _ => Or.inr rfl, fun h => h, fun hn _ => hn⟩
  | succ fuel ih =>
      intro fetch ch p m evs index h1 h2
      cases fetch with
      | true =>
          simp only [execGo]
          split
          case isFalse hlt =>
            obtain ⟨c1, c2, c3⟩ := flushMarks_ok cb p m evs len
            exact ⟨Nat.le_of_eq c1, fun _ => Or.inr c1, c3,
              fun hn he => by rw [c2]; exact hn⟩
          case isTrue hlt =>
            split
            case isFalse hhs =>
              exact ih false (data.getD index 0) p m evs index
                (by intro hx; cases hx) (fun _ => hlt)
            case isTrue hhs =>
              split
              case isTrue hov =>
                refine ⟨Nat.le_of_lt hlt, fun hc => by simp at hc,
                  fun hc => by simp at hc, fun _ hc => by simp at hc⟩
              case isFalse hov =>
                obtain ⟨d1, d2, d3, d4⟩ := ih false (data.getD index 0)
                  { p with nread := p.nread + 1 } m evs index
                  (by intro hx; cases hx) (fun _ => hlt)
                refine ⟨d1, d2, fun he => d3 he, fun _ he => d4 ?_ he⟩
                simpa using Nat.not_lt.mp hov
      | false =>
          simp only [execGo]
          have hd := dispatch_ok cb len p m evs index ch (h2 rfl)
          cases hdo : dispatch cb len p m evs index ch with
          | ret p' evs' c =>
              rw [hdo] at hd
              obtain ⟨b1, b2, b3⟩ := hd
              exact ⟨b1, fun he => Or.inl (b3 he).2, fun he => (b3 he).1,
                fun hn he => Nat.le_trans b2 hn⟩
          | retry p' m' evs' i =>
              rw [hdo] at hd
              obtain ⟨b1, b2, b3⟩ := hd
              obtain ⟨d1, d2, d3, d4⟩ := ih false ch p' m' evs' i
                (by intro hx; cases hx) (fun _ => b1)
              exact ⟨d1, d2, fun he => b3 ▸ d3 he,
                fun hn he => d4 (Nat.le_trans b2 hn) he⟩
          | adv p' m' evs' i =>
              rw [hdo] at hd
              obtain ⟨b1, b2, b3⟩ := hd
              obtain ⟨d1, d2, d3, d4⟩ := ih true ch p' m' evs' (i + 1)
                (fun _ => b1) (by intro hx; cases hx)
              exact ⟨d1, d2, fun he => b3 ▸ d3 he,
                fun hn he => d4 (Nat.le_trans b2 hn) he⟩

/-- In `HeaderField` with the `General` sub-state, a lowercase letter byte
(97, `a`) is consumed without any state change. -/
theorem dispatch_headerField_general (cb : Callbacks) (len : Nat)
    (p : HttpParser) (m : Marks) (evs : List Event) (index : Nat)
    (hs : p.state = State.HeaderField) (hh : p.header_state = HeaderState.General) :
    dispatch cb len p m evs index 97 = DOut.adv p m evs index := by
  unfold dispatch
  rw [hs]
  have hhc : is_header_char p.strict 97 = true := by
    cases p.strict <;> simp [is_header_char, is_normal_header_char]
  simp only [hhc, if_true, hh]

/-- A run of `a` bytes from `HeaderField`/`General` that crosses the 80 KiB
ceiling: the crossing byte (at offset `HTTP_MAX_HEADER_SIZE - nread` from
the run's start) sets `HeaderOverflow`, leaves `nread` one past the
ceiling, and its index is returned. -/
theorem execGo_overflow (cb : Callbacks) (data : List Nat) (len : Nat) :
    ∀ (d fuel ch0 : Nat) (p : HttpParser) (m : Marks) (evs : List Event)
      (index : Nat),
      p.state = State.HeaderField → p.header_state = HeaderState.General →
      p.nread + d = HTTP_MAX_HEADER_SIZE →
      (∀ j, index ≤ j → j < len → data.getD j 0 = 97) →
      index + d < len → 2 * d + 1 ≤ fuel →
      execGo cb data len fuel true ch0 p m evs index =
        ⟨{ p with nread := HTTP_MAX_HEADER_SIZE + 1,
                  errno := some HttpErrno.HeaderOverflow }, index + d, evs⟩ := by
  intro d
  induction d with
  | zero =>
      intro fuel ch0 p m evs index hs hh hn hdata hlen hfuel
      obtain ⟨f, rfl⟩ : ∃ f, fuel = f + 1 := ⟨fuel - 1, by omega⟩
      simp only [execGo]
      rw [if_pos (show index < len by omega)]
      have hhs : p.state.is_header_state = true := by
        rw [hs]; decide
      simp only [hhs, if_true]
      rw [if_pos (show p.nread + 1 > HTTP_MAX_HEADER_SIZE by omega)]
      have hp : p.nread = HTTP_MAX_HEADER_SIZE := by omega
      simp [hp]
  | succ d ih =>
      intro fuel ch0 p m evs index hs hh hn hdata hlen hfuel
      obtain ⟨f, rfl⟩ : ∃ f, fuel = f + 1 := ⟨fuel - 1, by omega⟩
      simp only [execGo]
      rw [if_pos (show index < len by omega)]
      have hhs : p.state.is_header_state = true := by
        rw [hs]; decide
      simp only [hhs, if_true]
      rw [if_neg (show ¬p.nread + 1 > HTTP_MAX_HEADER_SIZE by omega)]
      obtain ⟨f', rfl⟩ : ∃ f', f = f' + 1 := ⟨f - 1, by omega⟩
      have hb : data.getD index 0 = 97 := hdata index (Nat.le_refl _) (by omega)
      rw [hb]
      simp only [execGo]
      rw [dispatch_headerField_general cb len { p with nread := p.nread + 1 }
        m evs index hs hh]
      dsimp only
      have harith : index + (d + 1) = index + 1 + d := by omega
      rw [harith]
      have hih := ih f' 97 { p with nread := p.nread + 1 } m evs (index + 1)
        hs hh (by simp; omega) (fun j hj hj' => hdata j (by omega) hj')
        (by omega) (by omega)
      rw [hih]

/-- C2 counterexample: for HTTP/2.0 (major 2, minor 0) the code takes the
keep-alive-flag branch, not the `≥ 1.1` rule the claim asserts: with no
flags set on a request parser the code answers `false` where the claim's
reading answers `true`. -/
theorem C2_counterexample :
    ({ HttpParser.new HttpParserType.Request with
        http_version := ⟨2, 0⟩ } : HttpParser).http_should_keep_alive = false ∧
      should_keep_alive_claim
        { HttpParser.new HttpParserType.Request with http_version := ⟨2, 0⟩ } = true := by
  constructor <;> rfl

/-- C2 (amended): `http_should_keep_alive` applies the ConnectionClose rule
exactly when major ≥ 1 and minor ≥ 1 (so HTTP/2.0, minor 0, falls under
the keep-alive-flag rule), and in either case requires
`http_message_needs_eof` to be false. -/
theorem C2_http_should_keep_alive (p : HttpParser) :
    p.http_should_keep_alive = should_keep_alive_spec p := by
  unfold HttpParser.http_should_keep_alive should_keep_alive_spec
  generalize p.http_version.major = a
  generalize p.http_version.minor = b
  generalize p.flags &&& Flags.ConnectionClose = c
  generalize p.flags &&& Flags.ConnectionKeepAlive = k
  generalize p.http_message_needs_eof = n
  simp only [Bool.and_eq_true, decide_eq_true_eq, beq_iff_eq, ne_eq, gt_iff_lt]
  split_ifs <;> first | rfl | omega | simp_all

/-- C3 counterexample: after a response framed by EOF is completed by an
empty-input call, the parser stays in `BodyIdentityEof` with no error, and
a second empty-input call emits `on_message_complete` again. -/
theorem C3_counterexample :
    (let r0 := (HttpParser.new HttpParserType.Response).execute defaultCallbacks
        [72, 84, 84, 80, 47, 49, 46, 49, 32, 50, 48, 48, 32, 79, 75, 13, 10, 13, 10]
     let r1 := r0.p.execute defaultCallbacks []
     let r2 := r1.p.execute defaultCallbacks []
     r0.p.state = State.BodyIdentityEof ∧
       r1.events = [Event.MessageComplete] ∧ r1.p.errno = none ∧
       r2.events = [Event.MessageComplete]) := by
  decide

/-- C3 (amended): an empty-input call in `BodyIdentityEof` emits
`on_message_complete` and returns 0 but leaves the parser (state included)
unchanged, so every further empty-input call emits it again; exactly-once
holds only for completions that advance the state. -/
theorem C3_eof_reemits (p : HttpParser) (h1 : p.errno = none)
    (h2 : p.state = State.BodyIdentityEof) :
    p.execute defaultCallbacks [] = ⟨p, 0, [Event.MessageComplete]⟩ := by
  unfold HttpParser.execute
  rw [h1]
  simp only [Option.isSome_none, Bool.false_eq_true, if_false, if_true]
  rw [h2]
  simp [defaultCallbacks]

/-- C3 witness: a concrete parser in `BodyIdentityEof`. -/
theorem C3_eof_reemits_witness :
    ({ HttpParser.new HttpParserType.Response with
        state := State.BodyIdentityEof } : HttpParser).execute defaultCallbacks [] =
      ⟨{ HttpParser.new HttpParserType.Response with state := State.BodyIdentityEof },
        0, [Event.MessageComplete]⟩ :=
  C3_eof_reemits _ rfl rfl

/-- C5: a non-`Paused` errno makes every `execute` return 0 with the parser
untouched and no callback; `pause false` clears a `Paused` errno; `pause`
refuses (panics) exactly when errno is a non-`Paused` error. -/
theorem C5_sticky_errno_and_pause (cb : Callbacks) (p : HttpParser)
    (data : List Nat) (e : HttpErrno) (b : Bool) :
    (p.errno = some e → e ≠ HttpErrno.Paused →
      p.execute cb data = ⟨p, 0, []⟩) ∧
    (p.errno = some HttpErrno.Paused →
      p.pause false = some { p with errno := none }) ∧
    (p.pause b = none ↔
      ¬(p.errno = none ∨ p.errno = some HttpErrno.Paused)) := by
  refine ⟨fun he _ => ?_, fun hp => ?_, ?_⟩
  · unfold HttpParser.execute
    rw [he]
    simp
  · unfold HttpParser.pause
    rw [if_pos (Or.inr hp)]
    rfl
  · unfold HttpParser.pause
    split
    case isTrue h => simp [h]
    case isFalse h => simp [h]

/-- C5 witness: a parser stuck on `InvalidEofState` and a paused parser. -/
theorem C5_sticky_errno_and_pause_witness :
    (({ HttpParser.new HttpParserType.Request with
          errno := some HttpErrno.InvalidEofState } : HttpParser).execute
        defaultCallbacks [71] =
      ⟨{ HttpParser.new HttpParserType.Request with
          errno := some HttpErrno.InvalidEofState }, 0, []⟩) ∧
    (({ HttpParser.new HttpParserType.Request with
          errno := some HttpErrno.Paused } : HttpParser).pause false =
      some { HttpParser.new HttpParserType.Request with errno := none }) ∧
    ({ HttpParser.new HttpParserType.Request with
        errno := some HttpErrno.InvalidEofState } : HttpParser).pause true = none :=
  ⟨(C5_sticky_errno_and_pause defaultCallbacks _ [71] HttpErrno.InvalidEofState
      true).1 rfl (by decide),
   (C5_sticky_errno_and_pause defaultCallbacks _ [] HttpErrno.Paused
      false).2.1 rfl,
   (C5_sticky_errno_and_pause defaultCallbacks _ [] HttpErrno.InvalidEofState
      true).2.2.mpr (by decide)⟩

/-- C6: `http_message_needs_eof` agrees with the spec's description: false
for requests, for responses with status 1xx/204/304 or SkipBody, and when
chunked or a Content-Length is present; true otherwise. -/
theorem C6_http_message_needs_eof (p : HttpParser) :
    p.http_message_needs_eof = needs_eof_spec p := by
  unfold HttpParser.http_message_needs_eof needs_eof_spec
  split
  · rfl
  · dsimp only
    generalize p.status_code.getD 0 = s
    generalize p.flags &&& Flags.SkipBody = k1
    generalize p.flags &&& Flags.Chunked = k2
    generalize p.content_length = cl
    simp only [Bool.or_eq_true, beq_iff_eq, decide_eq_true_eq, ne_eq]
    split_ifs <;> first | rfl | omega

/-- C8 counterexample: `new_message` does not reset the per-message flags —
a parser with the `Trailing` flag keeps it across `new_message` (flags are
cleared only by the start states on the next message's first byte). -/
theorem C8_counterexample :
    (let p := { HttpParser.new HttpParserType.Request with
                  flags := Flags.Trailing, strict := false }
     p.new_message.flags = Flags.Trailing ∧ Flags.Trailing ≠ 0 ∧
       p.new_message.state = State.StartReq) := by
  decide

/-- C8 (amended): `new_message` leaves the flags unchanged and sets the
state to `Dead` exactly when strict mode is on and keep-alive is off, and
otherwise to `StartReq`/`StartRes` per parser type; the flags are reset by
the start state on the next message's first non-CR/LF byte. -/
theorem C8_new_message (p : HttpParser) :
    p.new_message.flags = p.flags ∧
    p.new_message.state =
      (if p.strict ∧ p.http_should_keep_alive = false then State.Dead
       else if p.tp = HttpParserType.Request then State.StartReq
       else State.StartRes) ∧
    (∀ (cb : Callbacks) (len : Nat) (m : Marks) (evs : List Event)
        (idx ch : Nat), p.state = State.StartReq → ch ≠ CR → ch ≠ LF →
      (dispatch cb len p m evs idx ch).parser.flags = 0 ∧
        (dispatch cb len p m evs idx ch).parser.content_length = ULLONG_MAX) := by
  refine ⟨rfl, ?_, ?_⟩
  · unfold HttpParser.new_message
    by_cases hs : p.strict = true <;> by_cases hk : p.http_should_keep_alive = true <;>
      simp_all
  · intro cb len m evs idx ch hst hcr hlf
    unfold dispatch
    rw [hst]
    dsimp only
    constructor <;> (repeat' split) <;>
      first
        | rfl
        | exact absurd (⟨hcr, hlf⟩ : ch ≠ CR ∧ ch ≠ LF) (by assumption)

/-- C8 witness: a concrete `StartReq` parser and the byte `G`. -/
theorem C8_new_message_witness :
    (let p := { HttpParser.new HttpParserType.Request with
                  flags := Flags.Trailing }
     p.new_message.flags = p.flags ∧
       (dispatch defaultCallbacks 1 p ⟨none, none, none, none, none⟩
          [] 0 71).parser.flags = 0) := by
  refine ⟨(C8_new_message _).1, ?_⟩
  exact ((C8_new_message _).2.2 defaultCallbacks 1 _ [] 0 71 rfl
    (by decide) (by decide)).1

/-- C10 counterexample: a fresh parser is strict, yet parses a request
whose lines end in bare LF to completion with no error — bare-LF line
terminators are not rejected in strict mode. -/
theorem C10_counterexample :
    (HttpParser.new HttpParserType.Request).strict = true ∧
    (let r := (HttpParser.new HttpParserType.Request).execute defaultCallbacks
        [71, 69, 84, 32, 47, 32, 72, 84, 84, 80, 47, 49, 46, 49, 10, 10]
     r.p.errno = none ∧ r.count = 16 ∧
       r.events = [Event.MessageBegin, Event.UrlSpan 4 5,
         Event.HeadersComplete, Event.MessageComplete]) := by
  constructor
  · rfl
  · decide

/-- C10 (amended): `new tp` starts strict with errno `none`, HTTP version
1.0, `content_length` at the `MAX` sentinel, and the start state matching
`tp`; strict mode rejects lax byte classes (SP in header names, TAB/FF in
URLs) though bare-LF line terminators are still accepted. -/
theorem C10_new (tp : HttpParserType) :
    (HttpParser.new tp).strict = true ∧
    (HttpParser.new tp).errno = none ∧
    (HttpParser.new tp).http_version = ⟨1, 0⟩ ∧
    (HttpParser.new tp).content_length = ULLONG_MAX ∧
    (HttpParser.new tp).state =
      (match tp with
       | HttpParserType.Request => State.StartReq
       | HttpParserType.Response => State.StartRes
       | HttpParserType.Both => State.StartReqOrRes) ∧
    is_header_char true 32 = false ∧ is_header_char false 32 = true ∧
    parse_url_char true State.ReqPath 9 = State.Dead ∧
    is_url_char true 9 = false ∧ is_url_char false 9 = true := by
  cases tp <;> exact ⟨rfl, rfl, rfl, rfl, rfl, by decide, by decide,
    by decide, by decide, by decide⟩

/-- C1 counterexample: an empty-input call on a parser stopped mid-header
sets `errno = InvalidEofState` yet returns 0 = len(input), so "count equals
len(input) iff no error was raised" fails. -/
theorem C1_counterexample :
    (let r1 := (HttpParser.new HttpParserType.Request).execute defaultCallbacks
        [71, 69, 84, 32, 47, 32, 72, 84, 84, 80, 47, 49, 46, 49, 13, 10, 72, 111,
          115, 116]
     let r2 := r1.p.execute defaultCallbacks []
     r1.p.errno = none ∧ r2.count = ([] : List Nat).length ∧
       r2.p.errno = some HttpErrno.InvalidEofState) := by
  decide

/-- C1 (amended): the count never exceeds the input length, and an
error-free call that consumed strictly less than its input is an Upgrade
completion (the upgrade flag is set on the returned parser); the converse
direction fails on empty input (`InvalidEofState` returns 0 = len) and on
callback errors during the end-of-buffer flush. -/
theorem C1_execute_count (cb : Callbacks) (p : HttpParser) (data : List Nat) :
    (p.execute cb data).count ≤ data.length ∧
      ((p.execute cb data).p.errno = none →
        (p.execute cb data).count < data.length →
        (p.execute cb data).p.upgrade = true) := by
  unfold HttpParser.execute
  dsimp only
  by_cases h : p.errno.isSome = true
  · rw [if_pos h]
    exact ⟨Nat.zero_le _, fun he _ => by rw [he] at h; simp at h⟩
  · rw [if_neg h]
    by_cases hlen : (data.length == 0) = true
    · rw [if_pos hlen]
      have hl : data.length = 0 := by simpa using hlen
      repeat' split
      all_goals exact ⟨Nat.zero_le _, fun _ hlt => absurd hlt (by omega)⟩
    · rw [if_neg hlen]
      obtain ⟨a1, a2, a3, a4⟩ := execGo_ok cb data data.length
        (8 * (data.length + 1)) true 0 p
        ⟨if p.state == State.HeaderField then some 0 else none,
          if p.state == State.HeaderValue then some 0 else none,
          match p.state with
          | State.ReqPath | State.ReqSchema | State.ReqSchemaSlash
          | State.ReqSchemaSlashSlash | State.ReqServerStart | State.ReqServer
          | State.ReqServerWithAt | State.ReqQueryStringStart
          | State.ReqQueryString | State.ReqFragmentStart
          | State.ReqFragment => some 0
          | _ => none,
          none,
          if p.state == State.ResStatus then some 0 else none⟩ [] 0
        (fun _ => Nat.zero_le _) (by intro hx; cases hx)
      exact ⟨a1, fun he hlt => (a2 he).resolve_right (by omega)⟩

/-- C4 counterexample: the hex overflow guard in chunk-size parsing sets
`InvalidContentLength`, not `InvalidChunkSize` as the claim states. -/
theorem C4_counterexample :
    (let p := { HttpParser.new HttpParserType.Request with
                  state := State.ChunkSize, flags := Flags.Chunked,
                  content_length := (ULLONG_MAX - 16) / 16 + 1 }
     (p.execute defaultCallbacks [48]).p.errno =
         some HttpErrno.InvalidContentLength ∧
       (p.execute defaultCallbacks [48]).p.errno ≠
         some HttpErrno.InvalidChunkSize ∧
       (p.execute defaultCallbacks [48]).count = 0) := by
  decide

/-- C4 (amended): every shift is guarded — `(MAX-10)/10 < current` before
a decimal shift in a Content-Length value, `(MAX-16)/16 < current` before
a hex shift in a chunk size — and a violated guard sets
`InvalidContentLength` in both places (`InvalidChunkSize` is reserved for
non-hex bytes in the chunk-size line). -/
theorem C4_overflow_guards (cb : Callbacks) (len : Nat) (p : HttpParser)
    (m : Marks) (evs : List Event) (idx ch : Nat) :
    (p.state = State.HeaderValue → p.header_state = HeaderState.ContentLength →
      is_num ch = true →
      ((ULLONG_MAX - 10) / 10 < p.content_length →
        dispatch cb len p m evs idx ch =
          DOut.ret { p with errno := some HttpErrno.InvalidContentLength }
            evs idx) ∧
      (p.content_length ≤ (ULLONG_MAX - 10) / 10 →
        dispatch cb len p m evs idx ch =
          DOut.adv { p with content_length := p.content_length * 10 + (ch - 48) }
            m evs idx)) ∧
    (p.state = State.ChunkSize → ∀ v, unhex_value ch = some v →
      ((ULLONG_MAX - 16) / 16 < p.content_length →
        dispatch cb len p m evs idx ch =
          DOut.ret { p with errno := some HttpErrno.InvalidContentLength }
            evs idx) ∧
      (p.content_length ≤ (ULLONG_MAX - 16) / 16 →
        dispatch cb len p m evs idx ch =
          DOut.adv { p with content_length := p.content_length * 16 + v }
            m evs idx)) := by
  constructor
  · intro hs hh hnum
    have hb : 48 ≤ ch ∧ ch ≤ 57 := by
      simpa [is_num] using hnum
    unfold dispatch
    rw [hs]
    dsimp only
    rw [if_neg (show ¬(ch == CR) = true by simp [CR]; omega)]
    rw [if_neg (show ¬(ch == LF) = true by simp [LF]; omega)]
    rw [hh]
    dsimp only
    rw [if_pos (show ch ≠ 32 by omega)]
    rw [if_neg (show ¬(¬is_num ch = true) by simp [hnum])]
    constructor
    · intro hg
      rw [if_pos hg]
    · intro hg
      rw [if_neg (by omega)]
  · intro hs v hv
    have hch : ch ≠ CR := by
      intro hc
      rw [hc] at hv
      simp [unhex_value, CR] at hv
    unfold dispatch
    rw [hs]
    dsimp only
    rw [if_neg (show ¬(ch == CR) = true by simpa using hch)]
    rw [hv]
    dsimp only
    constructor
    · intro hg
      rw [if_pos hg]
    · intro hg
      rw [if_neg (by omega)]

/-- Concrete parser at the decimal guard boundary (C4 witness). -/
def c4pA : HttpParser :=
  { HttpParser.new HttpParserType.Request with
      state := State.HeaderValue, header_state := HeaderState.ContentLength,
      content_length := (ULLONG_MAX - 10) / 10 + 1 }

/-- Concrete parser below the decimal guard (C4 witness). -/
def c4pB : HttpParser :=
  { HttpParser.new HttpParserType.Request with
      state := State.HeaderValue, header_state := HeaderState.ContentLength,
      content_length := 7 }

/-- Concrete parser at the hex guard boundary (C4 witness). -/
def c4pC : HttpParser :=
  { HttpParser.new HttpParserType.Request with
      state := State.ChunkSize, flags := Flags.Chunked,
      content_length := (ULLONG_MAX - 16) / 16 + 1 }

/-- Concrete parser below the hex guard (C4 witness). -/
def c4pD : HttpParser :=
  { HttpParser.new HttpParserType.Request with
      state := State.ChunkSize, flags := Flags.Chunked, content_length := 2 }

/-- C4 witness: both guards exercised at the boundary, one byte each
(`53` is the digit `5`, `102` the hex digit `f`). -/
theorem C4_overflow_guards_witness :
    (dispatch defaultCallbacks 1 c4pA ⟨none, none, none, none, none⟩ [] 0 53 =
      DOut.ret { c4pA with errno := some HttpErrno.InvalidContentLength } [] 0) ∧
    (dispatch defaultCallbacks 1 c4pB ⟨none, none, none, none, none⟩ [] 0 53 =
      DOut.adv { c4pB with content_length := 75 } ⟨none, none, none, none, none⟩
        [] 0) ∧
    (dispatch defaultCallbacks 1 c4pC ⟨none, none, none, none, none⟩ [] 0 102 =
      DOut.ret { c4pC with errno := some HttpErrno.InvalidContentLength } [] 0) ∧
    (dispatch defaultCallbacks 1 c4pD ⟨none, none, none, none, none⟩ [] 0 102 =
      DOut.adv { c4pD with content_length := 47 } ⟨none, none, none, none, none⟩
        [] 0) := by
  refine ⟨?_, ?_, ?_, ?_⟩
  · exact ((C4_overflow_guards defaultCallbacks 1 c4pA
      ⟨none, none, none, none, none⟩ [] 0 53).1 rfl rfl (by decide)).1
      (by decide)
  · have := ((C4_overflow_guards defaultCallbacks 1 c4pB
      ⟨none, none, none, none, none⟩ [] 0 53).1 rfl rfl (by decide)).2
      (by decide)
    simpa [c4pB] using this
  · exact ((C4_overflow_guards defaultCallbacks 1 c4pC
      ⟨none, none, none, none, none⟩ [] 0 102).2 rfl 15 rfl).1 (by decide)
  · have := ((C4_overflow_guards defaultCallbacks 1 c4pD
      ⟨none, none, none, none, none⟩ [] 0 102).2 rfl 15 rfl).2 (by decide)
    simpa [c4pD] using this

/-- C7 counterexample: a space byte inside a Content-Length value (after
the first digit) is skipped, not rejected — errno stays `none` and the
accumulated length is unchanged, where the claim demands
`InvalidContentLength`. -/
theorem C7_counterexample :
    (let p := { HttpParser.new HttpParserType.Request with
                  state := State.HeaderValue,
                  header_state := HeaderState.ContentLength,
                  content_length := 1 }
     (p.execute defaultCallbacks [32]).p.errno = none ∧
       (p.execute defaultCallbacks [32]).p.content_length = 1) := by
  decide

/-- C7 (amended): the first Content-Length value byte must be a digit
(`InvalidContentLength` otherwise); later bytes must be digits except that
SP is silently skipped; any other non-digit byte (besides the CR/LF
terminators) sets `InvalidContentLength`. -/
theorem C7_content_length_digits (cb : Callbacks) (len : Nat) (p : HttpParser)
    (m : Marks) (evs : List Event) (idx ch : Nat) :
    ((p.state = State.HeaderValueStart ∨
        (p.state = State.HeaderValueDiscardWs ∧
          ¬(ch = 32 ∨ ch = 9 ∨ ch = CR ∨ ch = LF))) →
      p.header_state = HeaderState.ContentLength →
      (is_num ch = false →
        dispatch cb len p m evs idx ch =
          DOut.ret { p with state := State.HeaderValue, index := 0,
                            errno := some HttpErrno.InvalidContentLength }
            evs idx) ∧
      (is_num ch = true → m.header_value = none →
        dispatch cb len p m evs idx ch =
          DOut.adv { p with state := State.HeaderValue, index := 0,
                            content_length := ch - 48 }
            { m with header_value := some idx } evs idx)) ∧
    (p.state = State.HeaderValue → p.header_state = HeaderState.ContentLength →
      (ch = 32 → dispatch cb len p m evs idx ch = DOut.adv p m evs idx) ∧
      (ch ≠ 32 → ch ≠ CR → ch ≠ LF → is_num ch = false →
        dispatch cb len p m evs idx ch =
          DOut.ret { p with errno := some HttpErrno.InvalidContentLength }
            evs idx)) := by
  constructor
  · intro hs hh
    have hstep : dispatch cb len p m evs idx ch =
        headerValueStartStep p m evs idx ch := by
      rcases hs with h | ⟨h, hws⟩
      · unfold dispatch
        rw [h]
      · unfold dispatch
        rw [h]
        dsimp only
        rw [if_neg (by simpa [CR, LF] using hws)]
    rw [hstep]
    unfold headerValueStartStep
    dsimp only
    rw [hh]
    dsimp only
    constructor
    · intro hnd
      rw [if_pos (by simp [hnd])]
    · intro hnd hm
      rw [if_neg (by simp [hnd])]
      rw [hm]
  · intro hs hh
    constructor
    · intro hsp
      unfold dispatch
      rw [hs]
      dsimp only
      rw [if_neg (show ¬(ch == CR) = true by simp [CR]; omega)]
      rw [if_neg (show ¬(ch == LF) = true by simp [LF]; omega)]
      rw [hh]
      dsimp only
      rw [if_neg (by omega)]
    · intro h32 hcr hlf hnd
      unfold dispatch
      rw [hs]
      dsimp only
      rw [if_neg (show ¬(ch == CR) = true by simpa using hcr)]
      rw [if_neg (show ¬(ch == LF) = true by simpa using hlf)]
      rw [hh]
      dsimp only
      rw [if_pos h32]
      rw [if_pos (by simp [hnd])]

/-- Concrete parser at the start of a Content-Length value (C7 witness). -/
def c7pA : HttpParser :=
  { HttpParser.new HttpParserType.Request with
      state := State.HeaderValueStart,
      header_state := HeaderState.ContentLength }

/-- Concrete parser inside a Content-Length value (C7 witness). -/
def c7pC : HttpParser :=
  { HttpParser.new HttpParserType.Request with
      state := State.HeaderValue, header_state := HeaderState.ContentLength,
      content_length := 1 }

/-- C7 witness: a non-digit first byte (120, `x`), a digit first byte (53,
`5`), a skipped SP and a rejected letter inside the value. -/
theorem C7_content_length_digits_witness :
    (dispatch defaultCallbacks 1 c7pA ⟨none, none, none, none, none⟩ [] 0 120 =
      DOut.ret { c7pA with state := State.HeaderValue, index := 0,
                           errno := some HttpErrno.InvalidContentLength }
        [] 0) ∧
    (dispatch defaultCallbacks 1 c7pA ⟨none, none, none, none, none⟩ [] 0 53 =
      DOut.adv { c7pA with state := State.HeaderValue, index := 0,
                           content_length := 5 }
        ⟨none, some 0, none, none, none⟩ [] 0) ∧
    (dispatch defaultCallbacks 1 c7pC ⟨none, none, none, none, none⟩ [] 0 32 =
      DOut.adv c7pC ⟨none, none, none, none, none⟩ [] 0) ∧
    (dispatch defaultCallbacks 1 c7pC ⟨none, none, none, none, none⟩ [] 0 120 =
      DOut.ret { c7pC with errno := some HttpErrno.InvalidContentLength } [] 0) := by
  refine ⟨?_, ?_, ?_, ?_⟩
  · exact ((C7_content_length_digits defaultCallbacks 1 c7pA
      ⟨none, none, none, none, none⟩ [] 0 120).1 (Or.inl rfl) rfl).1 (by decide)
  · have := ((C7_content_length_digits defaultCallbacks 1 c7pA
      ⟨none, none, none, none, none⟩ [] 0 53).1 (Or.inl rfl) rfl).2
      (by decide) rfl
    simpa [c7pA] using this
  · exact ((C7_content_length_digits defaultCallbacks 1 c7pC
      ⟨none, none, none, none, none⟩ [] 0 32).2 rfl rfl).1 rfl
  · exact ((C7_content_length_digits defaultCallbacks 1 c7pC
      ⟨none, none, none, none, none⟩ [] 0 120).2 rfl rfl).2 (by decide)
      (by decide) (by decide) (by decide)

/-- Every in-range position of `List.replicate n 97` reads back 97. -/
theorem replicate_getD (n j : Nat) (h : j < n) :
    (List.replicate n (97 : Nat)).getD j 0 = 97 := by
  induction n generalizing j with
  | zero => omega
  | succ n ih =>
      cases j with
      | zero => rfl
      | succ j => exact ih j (by omega)

/-- C9: on every error-free run the persistent `nread` stays within the
80 KiB ceiling (so in particular while in any header-region state), and a
header-byte run from `HeaderField` that crosses the ceiling sets
`HeaderOverflow` exactly at the ceiling-crossing byte, whose index is
returned. -/
theorem C9_nread_ceiling :
    (∀ (cb : Callbacks) (p : HttpParser) (data : List Nat),
      (p.errno = none → p.nread ≤ HTTP_MAX_HEADER_SIZE) →
      ((p.execute cb data).p.errno = none →
        (p.execute cb data).p.nread ≤ HTTP_MAX_HEADER_SIZE)) ∧
    (∀ (p : HttpParser) (n : Nat),
      p.errno = none → p.state = State.HeaderField →
      p.header_state = HeaderState.General →
      p.nread ≤ HTTP_MAX_HEADER_SIZE →
      HTTP_MAX_HEADER_SIZE - p.nread < n →
      p.execute defaultCallbacks (List.replicate n 97) =
        ⟨{ p with nread := HTTP_MAX_HEADER_SIZE + 1,
                  errno := some HttpErrno.HeaderOverflow },
          HTTP_MAX_HEADER_SIZE - p.nread, []⟩) := by
  constructor
  · intro cb p data hInv
    unfold HttpParser.execute
    dsimp only
    by_cases h : p.errno.isSome = true
    · rw [if_pos h]
      exact fun he => hInv he
    · rw [if_neg h]
      by_cases hlen : (data.length == 0) = true
      · rw [if_pos hlen]
        repeat' split
        all_goals first
          | exact fun he => hInv he
          | exact fun he => by simp at he
      · rw [if_neg hlen]
        obtain ⟨a1, a2, a3, a4⟩ := execGo_ok cb data data.length
          (8 * (data.length + 1)) true 0 p _ [] 0
          (fun _ => Nat.zero_le _) (by intro hx; cases hx)
        exact fun he => a4 (hInv (a3 he)) he
  · intro p n h1 h2 h3 h4 h5
    unfold HttpParser.execute
    rw [h1]
    simp only [Option.isSome_none, Bool.false_eq_true, if_false]
    rw [if_neg (show ¬((List.replicate n (97 : Nat)).length == 0) = true by
      simp [List.length_replicate]; omega)]
    have := execGo_overflow defaultCallbacks (List.replicate n 97)
      (List.replicate n 97).length (HTTP_MAX_HEADER_SIZE - p.nread)
      (8 * ((List.replicate n 97).length + 1)) 0 p
      ⟨if p.state == State.HeaderField then some 0 else none,
        if p.state == State.HeaderValue then some 0 else none,
        match p.state with
        | State.ReqPath | State.ReqSchema | State.ReqSchemaSlash
        | State.ReqSchemaSlashSlash | State.ReqServerStart | State.ReqServer
        | State.ReqServerWithAt | State.ReqQueryStringStart
        | State.ReqQueryString | State.ReqFragmentStart
        | State.ReqFragment => some 0
        | _ => none,
        none,
        if p.state == State.ResStatus then some 0 else none⟩ [] 0
      h2 h3 (by omega)
      (fun j _ hj => replicate_getD n j (by simpa using hj))
      (by simp [List.length_replicate]; omega)
      (by simp [List.length_replicate]; omega)
    rw [this]
    simp

/-- C9 witness: a parser one byte below the ceiling overflows on the next
header byte; a fresh parser stays below the ceiling after one byte. -/
theorem C9_nread_ceiling_witness :
    (let p := { HttpParser.new HttpParserType.Request with
                  state := State.HeaderField,
                  nread := HTTP_MAX_HEADER_SIZE }
     p.execute defaultCallbacks (List.replicate 1 97) =
       ⟨{ p with nread := HTTP_MAX_HEADER_SIZE + 1,
                 errno := some HttpErrno.HeaderOverflow }, 0, []⟩) ∧
    ((HttpParser.new HttpParserType.Request).execute defaultCallbacks
        [71]).p.nread ≤ HTTP_MAX_HEADER_SIZE := by
  constructor
  · have := C9_nread_ceiling.2
      { HttpParser.new HttpParserType.Request with
          state := State.HeaderField, nread := HTTP_MAX_HEADER_SIZE } 1
      rfl rfl rfl (Nat.le_refl _) (by decide)
    simpa using this
  · exact C9_nread_ceiling.1 defaultCallbacks _ [71]
      (fun _ => by decide) (by decide)

end HapParser
